import Mathlib

/-!
Verification of the ComfyUI backend task-lifecycle core against its
natural-language specification.

The embedding follows the source files:
  ComfyUI-fastapi/app/services/task_manager.py  (TaskStatus, Task, TaskManager)
  backend/app/services/comfy_client.py          (ComfyUIClient websocket relay)
  ComfyUI-fastapi/app/routers/generation.py     (generate, get_task_status)
  backend/app/workflows/base.py                 (WorkflowExecutor)

Machine integers are modelled as Int/Nat, timestamps as Nat ticks, the Redis
hash store as an association list from task id to record plus an explicit
expiry instant (redis expire sets expiresAt = now + ttl), and Python
exceptions as Except values that are caught where the source catches them.
-/

namespace ComfyBackend

/-- Task status values (task_manager.py, class TaskStatus). -/
inductive TaskStatus
  | queued
  | processing
  | completed
  | failed
  | unknown
deriving DecidableEq, Repr

/-- Scalar JSON values appearing in parameters, results and widget values. -/
inductive JVal
  | jnull
  | jbool (b : Bool)
  | jnum (n : Int)
  | jstr (s : String)
deriving DecidableEq, Repr

/-- The modifications payload shape: node id to field overrides
(Dict[str, Dict[str, Any]] in the source). The created task stores this
mapping as its parameters. -/
abbrev Params := List (String × List (String × JVal))

/-- Result payload attached to a task (Dict[str, Any] in the source). -/
abbrev ResultMap := List (String × JVal)

/-- Task record (task_manager.py, class Task). Timestamps are Nat ticks. -/
structure Task where
  id : String
  workflow_name : String
  parameters : Params
  status : TaskStatus
  progress : Int
  created_at : Nat
  updated_at : Nat
  result : Option ResultMap
  prompt_id : Option String
deriving DecidableEq, Repr

/-- One stored Redis record: the task hash together with its expiry instant
(set by redis expire; a record whose expiry is never refreshed keeps its old
expiresAt). -/
structure Entry where
  task : Task
  expiresAt : Nat
deriving DecidableEq, Repr

/-- The Redis store: an association list keyed by task id (the source key is
the string task:{id}; the constant prefix is dropped). -/
structure Store where
  entries : List (String × Entry)
deriving DecidableEq, Repr

/-- The settings used by the core (config.py, class Settings). -/
structure Settings where
  TASK_TTL_SECONDS : Nat
  PROXY_WEBHOOK_URL : String
  PROXY_WEBHOOK_SECRET : String
deriving DecidableEq, Repr

/-- A scheduled webhook notification attempt: update_task_status calls
asyncio.create_task on _notify_proxy_server with these arguments. -/
structure NotifyAttempt where
  task_id : String
  status : TaskStatus
  result : Option ResultMap
deriving DecidableEq, Repr

def Store.lookup (s : Store) (tid : String) : Option Entry :=
  (s.entries.find? (fun p => p.1 == tid)).map (·.2)

/-- Full-record write at a key (the mutating operations hset the whole field
mapping). The entry replaces any previous one at the same key. -/
def Store.set (s : Store) (tid : String) (e : Entry) : Store :=
  ⟨(tid, e) :: s.entries.filter (fun p => p.1 != tid)⟩

/-- Deserialization composed with serialization (Task.from_redis_dict after
Task.to_redis_dict): lossless except that an empty result dict and an empty
prompt_id string are stored as the empty string and read back as None. -/
def redisRoundtrip (t : Task) : Task :=
  { t with
    result := if t.result = some [] then none else t.result
    prompt_id := if t.prompt_id = some "" then none else t.prompt_id }

/-- The string stored in the prompt_id hash field (to_redis_dict stores the
empty string for None). -/
def promptIdStr : Option String → String
  | none => ""
  | some p => p

namespace TaskManager

/-- TaskManager.create_task: builds a QUEUED task with progress 0, hsets it
and sets its TTL. The uuid4 task id and datetime.now are inputs. -/
def create_task (cfg : Settings) (s : Store) (task_id : String)
    (workflow_name : String) (parameters : Params) (now : Nat) :
    Store × Task :=
  let task : Task :=
    { id := task_id, workflow_name := workflow_name, parameters := parameters
      status := .queued, progress := 0, created_at := now, updated_at := now
      result := none, prompt_id := none }
  (s.set task_id { task := task, expiresAt := now + cfg.TASK_TTL_SECONDS }, task)

/-- TaskManager.update_task_progress: reads the record, clamps progress to
[0, 100] with max(0, min(100, progress)), refreshes updated_at and hsets the
record back. This operation calls no expire, so the expiry instant of the
record is left unchanged. -/
def update_task_progress (s : Store) (task_id : String) (progress : Int)
    (now : Nat) : Store × Bool :=
  match s.lookup task_id with
  | none => (s, false)
  | some e =>
    let task := redisRoundtrip e.task
    let task := { task with progress := max 0 (min 100 progress), updated_at := now }
    (s.set task_id { task := task, expiresAt := e.expiresAt }, true)

/-- TaskManager.update_task_status: rewrites the status and updated_at hash
fields (and the result field when a result is given), hsets, refreshes the
TTL, and finally schedules a webhook notification when PROXY_WEBHOOK_URL is
configured and the new status is COMPLETED or FAILED. The scheduled attempt
is returned; its delivery outcome feeds nothing back into the store. The
source accepts the status as a string and converts it with TaskStatus(...);
every caller passes a valid enum value, so the argument is typed
TaskStatus here. -/
def update_task_status (cfg : Settings) (s : Store) (task_id : String)
    (status : TaskStatus) (result : Option ResultMap) (now : Nat) :
    Store × Bool × Option NotifyAttempt :=
  match s.lookup task_id with
  | none => (s, false, none)
  | some e =>
    let task :=
      { e.task with
        status := status, updated_at := now
        result := match result with | none => e.task.result | some r => some r }
    let s' := s.set task_id { task := task, expiresAt := now + cfg.TASK_TTL_SECONDS }
    let notify : Option NotifyAttempt :=
      if cfg.PROXY_WEBHOOK_URL ≠ "" ∧ (status = .completed ∨ status = .failed)
      then some { task_id := task_id, status := status, result := result }
      else none
    (s', true, notify)

/-- TaskManager.update_task_result: rewrites only the result and updated_at
hash fields, hsets and refreshes the TTL. It contains no webhook call. -/
def update_task_result (cfg : Settings) (s : Store) (task_id : String)
    (result : ResultMap) (now : Nat) : Store × Bool :=
  match s.lookup task_id with
  | none => (s, false)
  | some e =>
    let task := { e.task with result := some result, updated_at := now }
    (s.set task_id { task := task, expiresAt := now + cfg.TASK_TTL_SECONDS }, true)

/-- TaskManager.get_task: reads the record back through from_redis_dict. -/
def get_task (s : Store) (task_id : String) : Option Task :=
  (s.lookup task_id).map (fun e => redisRoundtrip e.task)

/-- TaskManager.get_task_by_prompt_id: scans all task keys and returns the
first task whose stored prompt_id field equals the argument. -/
def get_task_by_prompt_id (s : Store) (prompt_id : String) : Option Task :=
  (s.entries.find? (fun p => promptIdStr p.2.task.prompt_id == prompt_id)).map
    (fun p => redisRoundtrip p.2.task)

/-- TaskManager.update_prompt_id: reads the record, sets prompt_id and
updated_at, hsets and refreshes the TTL. -/
def update_prompt_id (cfg : Settings) (s : Store) (task_id : String)
    (prompt_id : String) (now : Nat) : Store × Bool :=
  match s.lookup task_id with
  | none => (s, false)
  | some e =>
    let task := redisRoundtrip e.task
    let task := { task with prompt_id := some prompt_id, updated_at := now }
    (s.set task_id { task := task, expiresAt := now + cfg.TASK_TTL_SECONDS }, true)

end TaskManager

/-! ## Event relay (backend/app/services/comfy_client.py, ComfyUIClient) -/

/-- A websocket message after json.loads, restricted to the shapes the
handler inspects. binary models non-str payloads (raw image bytes). -/
inductive WsMsg
  | binary
  | progress (prompt_id : Option String) (value : Int) (maxv : Int)
  | executing (prompt_id : Option String) (node : Option String)
  | statusMsg
  | other
deriving DecidableEq, Repr

/-- The engine collaborators consulted inside the executing branch:
get_history (whether the history response exists and contains the prompt id),
get_images, and s3_service.process_comfyui_images applied to them. -/
structure EngineView where
  historyHas : Bool
  outputImages : List (String × JVal)
  processedImages : ResultMap
deriving DecidableEq, Repr

/-- Python int() applied to a rational: truncation toward zero. -/
def pyTrunc (q : ℚ) : Int :=
  if 0 ≤ q then ⌊q⌋ else ⌈q⌉

/-- The progress computation int((value / max) * 100): a ZeroDivisionError
when max is 0, the truncated percentage otherwise. -/
def progressCalc (value maxv : Int) : Except String Int :=
  if maxv = 0 then .error "ZeroDivisionError: division by zero"
  else .ok (pyTrunc (((value : ℚ) / (maxv : ℚ)) * 100))

/-- The body of ComfyUIClient._on_ws_message, before its surrounding
try/except: an uncaught Python exception is an error value. Store mutations
go through the TaskManager operations; the scheduled webhook attempts are
collected. -/
def onWsMessageBody (cfg : Settings) (ev : EngineView) (s : Store)
    (msg : WsMsg) (now : Nat) : Except String (Store × List NotifyAttempt) :=
  match msg with
  | .binary => .ok (s, [])
  | .statusMsg => .ok (s, [])
  | .other => .ok (s, [])
  | .progress prompt_id value maxv =>
    match prompt_id with
    | none => .ok (s, [])
    | some pid =>
      if pid = "" then .ok (s, [])  -- if not prompt_id: empty string is falsy
      else
        match TaskManager.get_task_by_prompt_id s pid with
        | none => .ok (s, [])
        | some task =>
          match progressCalc value maxv with
          | .error e => .error e
          | .ok progress =>
            .ok ((TaskManager.update_task_progress s task.id progress now).1, [])
  | .executing prompt_id node =>
    match prompt_id with
    | none => .ok (s, [])
    | some pid =>
      if pid = "" then .ok (s, [])
      else
        match TaskManager.get_task_by_prompt_id s pid with
        | none => .ok (s, [])
        | some task =>
          match node with
          | some _ => .ok (s, [])  -- a non-null active node: no state change
          | none =>
            if ev.historyHas then
              let s1 :=
                if ev.outputImages ≠ [] then
                  (TaskManager.update_task_result cfg s task.id ev.processedImages now).1
                else s
              let r := TaskManager.update_task_status cfg s1 task.id .completed none now
              .ok (r.1, r.2.2.toList)
            else .ok (s, [])

/-- ComfyUIClient._on_ws_message: the whole handler, whose try/except catches
every exception of the body, logs it and returns normally with the store
untouched beyond what the body already committed (the only raise point in the
body, the progress division, happens before any store write). -/
def onWsMessage (cfg : Settings) (ev : EngineView) (s : Store) (msg : WsMsg)
    (now : Nat) : Store × List NotifyAttempt :=
  match onWsMessageBody cfg ev s msg now with
  | .error _ => (s, [])
  | .ok r => r

/-! ## Reconnect backoff (comfy_client.py, _start_websocket and _on_ws_open) -/

/-- The mutable connection state of ComfyUIClient that the reconnect loop
reads and writes. reconnect_delay starts at 5 with ceiling 60. -/
structure RelayConn where
  reconnect_delay : ℚ
deriving DecidableEq, Repr

/-- Initial client state (reconnect_delay = 5 in init). -/
def relayInit : RelayConn := { reconnect_delay := 5 }

/-- One iteration of the websocket thread loop in which the connection
attempt failed: the thread sleeps min(reconnect_delay, 60) and then sets
reconnect_delay to min(reconnect_delay * 1.5, 60). Returns the wait it slept
together with the state after the iteration. -/
def failedIteration (c : RelayConn) : ℚ × RelayConn :=
  (min c.reconnect_delay 60, { reconnect_delay := min (c.reconnect_delay * (3 / 2)) 60 })

/-- ComfyUIClient._on_ws_open: a successful connection resets
reconnect_delay to 5. -/
def onWsOpen (c : RelayConn) : RelayConn :=
  { c with reconnect_delay := 5 }

/-- The connection state after n consecutive failed iterations from the
initial state. -/
def delayAfter : Nat → RelayConn
  | 0 => relayInit
  | n + 1 => (failedIteration (delayAfter n)).2

/-- The wait slept before reconnection attempt n + 1 when every attempt
fails. -/
def waitSeq (n : Nat) : ℚ := (failedIteration (delayAfter n)).1

/-! ## Workflow executor (backend/app/workflows/base.py, WorkflowExecutor)

Python objects are aliased: the executor holds self.workflow (whose nodes
list holds references to node dicts) and self.normalized_nodes (string node
id to the same references). update_workflow copies only the outer dict
(self.workflow.copy() is shallow), so the returned payload shares the node
objects with the stored template. The embedding makes the aliasing explicit
with a heap of node objects addressed by Nat references. -/

/-- One entry of a node inputs list. widget none models an input dict with
no widget key; widget (some none) models a widget dict with no name key. -/
structure InputDef where
  widget : Option (Option String)
deriving DecidableEq, Repr

/-- One workflow node object. inputs none and widgets_values none model a
node dict lacking those keys (or holding a non-list value). -/
structure WNode where
  nid : Int
  inputs : Option (List InputDef)
  widgets_values : Option (List JVal)
deriving DecidableEq, Repr

def heapGet (h : List (Nat × WNode)) (r : Nat) : Option WNode :=
  (h.find? (fun p => p.1 == r)).map (·.2)

def heapSet (h : List (Nat × WNode)) (r : Nat) (n : WNode) : List (Nat × WNode) :=
  h.map (fun p => if p.1 == r then (r, n) else p)

def lookupAssoc {α : Type} (m : List (String × α)) (k : String) : Option α :=
  (m.find? (fun p => p.1 == k)).map (·.2)

def upsertAssoc {α : Type} (m : List (String × α)) (k : String) (v : α) :
    List (String × α) :=
  if m.any (fun p => p.1 == k) then m.map (fun p => if p.1 == k then (k, v) else p)
  else m ++ [(k, v)]

/-- The executor state: self.workflow (its nodes list, as references),
self.normalized_nodes (string ids to the same references), and the heap of
node objects both structures point into. -/
structure WExec where
  workflow_nodes : List Nat
  normalized_nodes : List (String × Nat)
  heap : List (Nat × WNode)
deriving DecidableEq, Repr

/-- WorkflowExecutor.normalize_workflow: normalized[str(node id)] = node for
each node of the list, in order (a later duplicate id overwrites). -/
def normalize_workflow (heap : List (Nat × WNode)) (refs : List Nat) :
    List (String × Nat) :=
  refs.foldl
    (fun acc r =>
      match heapGet heap r with
      | some node => upsertAssoc acc (toString node.nid) r
      | none => acc)
    []

/-- Executor construction from a loaded nodes list: each node becomes a heap
object; normalized_nodes indexes the same references. -/
def mkExecutor (nodes : List WNode) : WExec :=
  let heap := (List.range nodes.length).zip nodes
  let refs := List.range nodes.length
  { workflow_nodes := refs, normalized_nodes := normalize_workflow heap refs
    heap := heap }

/-- The inner loop of update_workflow over the field overrides of one node:
for each key the widget index is searched among the node inputs (an input
whose widget dict has name equal to the key) and, when found and in range,
that position of widgets_values is assigned. The node object is mutated in
place, so later keys see earlier assignments. -/
def applyNodeUpdates (node : WNode) (updates : List (String × JVal)) : WNode :=
  updates.foldl
    (fun nd kv =>
      let widget_index : Option Nat :=
        match nd.inputs with
        | some inputs => inputs.findIdx? (fun d => d.widget == some (some kv.1))
        | none => none
      match widget_index, nd.widgets_values with
      | some i, some ws =>
        if i < ws.length then { nd with widgets_values := some (ws.set i kv.2) }
        else nd
      | _, _ => nd)
    node

/-- WorkflowExecutor.update_workflow: workflow = self.workflow.copy() copies
only the outer dict, so the returned payload holds the same node references;
a modification whose node id is not in normalized_nodes is skipped silently,
as is a node without a widgets_values list. The function contains no raise:
it never produces a WorkflowModificationError or any ValidationError. The
mutated heap stays in the executor (the node objects are shared). -/
def update_workflow (ex : WExec) (modifications : Params) : List Nat × WExec :=
  let heap :=
    modifications.foldl
      (fun h m =>
        match lookupAssoc ex.normalized_nodes m.1 with
        | none => h
        | some r =>
          match heapGet h r with
          | none => h
          | some node =>
            match node.widgets_values with
            | some _ => heapSet h r (applyNodeUpdates node m.2)
            | none => h)
      ex.heap
  (ex.workflow_nodes, { ex with heap := heap })

/-! ## Request layer (ComfyUI-fastapi/app/routers/generation.py) -/

/-- Outcome of comfy_client.queue_prompt: the prompt id on success, the
message of the raised exception otherwise (engine unreachable, timeout,
malformed response). -/
inductive EngineResult
  | ok (prompt_id : String)
  | err (msg : String)
deriving DecidableEq, Repr

/-- The success body returned by the generate endpoint. -/
structure GenResponse where
  task_id : String
  status : String
  progress : Int
  message : String
deriving DecidableEq, Repr

/-- What the generate endpoint hands back to the framework: a body or a
raised HTTPException. -/
inductive GenReply
  | ok (r : GenResponse)
  | httpError (code : Nat) (detail : String)
deriving DecidableEq, Repr

/-- The full effect of one generate call. -/
structure GenOut where
  store : Store
  reply : GenReply
  notifications : List NotifyAttempt
  registry : List (String × WExec)
deriving Repr

/-- The str() rendering of a starlette HTTPException: code and detail. -/
def httpExnStr (code : Nat) (detail : String) : String :=
  toString code ++ ": " ++ detail

/-- The generate endpoint (generation.py lines 76-139). Control flow of the
source: an outer try wrapping everything after entry; create_task; an inner
try that resolves the workflow, applies the modifications, queues the
prompt, records the prompt id and sets PROCESSING; inner except clauses for
WorkflowNotFoundError and WorkflowModificationError that mark the task
FAILED and raise an HTTPException, which the outer except Exception then
catches and rewraps as a 500; any other exception (queue_prompt failures
included) reaches the outer except directly, with no FAILED mark. The
registry lookup result and the engine outcome are inputs;
workflow_registry.get_workflow reloads from disk and raises
WorkflowNotFoundError when the name is absent, modelled by absence from the
registry list. update_workflow never raises, so the
WorkflowModificationError clause is dead code here. -/
def generate (cfg : Settings) (registry : List (String × WExec))
    (engine : EngineResult) (s : Store) (workflow_name : String)
    (modifications : Params) (task_id : String) (now : Nat) : GenOut :=
  let (s1, _task) := TaskManager.create_task cfg s task_id workflow_name modifications now
  match lookupAssoc registry workflow_name with
  | none =>
    let detail := "Workflow \x27" ++ workflow_name ++ "\x27 not found"
    let r := TaskManager.update_task_status cfg s1 task_id .failed
      (some [("error", .jstr detail)]) now
    { store := r.1
      reply := .httpError 500 ("Error generating output: " ++ httpExnStr 404 detail)
      notifications := r.2.2.toList
      registry := registry }
  | some ex =>
    let (_modified_workflow, ex') := update_workflow ex modifications
    let registry' := upsertAssoc registry workflow_name ex'
    match engine with
    | .err m =>
      { store := s1
        reply := .httpError 500 ("Error generating output: " ++ m)
        notifications := []
        registry := registry' }
    | .ok prompt_id =>
      let s2 := (TaskManager.update_prompt_id cfg s1 task_id prompt_id now).1
      let r := TaskManager.update_task_status cfg s2 task_id .processing none now
      { store := r.1
        reply := .ok
          { task_id := task_id, status := "queued", progress := 0
            message := "Workflow successfully queued. Use the /generation/tasks/\x7btask_id\x7d endpoint to track progress." }
        notifications := r.2.2.toList
        registry := registry' }

/-- A reply of the task status endpoint. The message field holds the value
placed in the response (for a FAILED task, result[error] itself). -/
inductive StatusReply
  | ok (task_id : String) (status : TaskStatus) (progress : Int)
       (result : Option ResultMap) (message : Option JVal)
  | httpError (code : Nat) (detail : String)
deriving DecidableEq, Repr

/-- Whether a Python dict value is truthy: present and non-empty. -/
def truthyResult : Option ResultMap → Bool
  | none => false
  | some r => ¬r.isEmpty

/-- The get_task_status endpoint (generation.py lines 141-176): 404 when the
task is unknown; otherwise status and progress, plus a result or message
following the elif chain of the source. -/
def get_task_status (s : Store) (task_id : String) : StatusReply :=
  match TaskManager.get_task s task_id with
  | none => .httpError 404 ("Task with ID " ++ task_id ++ " not found")
  | some task =>
    if task.status = .completed ∧ truthyResult task.result then
      .ok task.id task.status task.progress task.result
        (some (.jstr "Task completed successfully"))
    else if task.status = .failed ∧ truthyResult task.result ∧
        ((task.result.getD []).find? (fun p => p.1 == "error")).isSome then
      .ok task.id task.status task.progress none
        (((task.result.getD []).find? (fun p => p.1 == "error")).map (·.2))
    else if task.status = .processing then
      .ok task.id task.status task.progress none
        (some (.jstr "Task is currently processing"))
    else if task.status = .queued then
      .ok task.id task.status task.progress none
        (some (.jstr "Task is queued and waiting to be processed"))
    else
      .ok task.id task.status task.progress none none

/-! ## Interleaved executions (for the status transition claims)

The store is mutated from exactly two places: the generate endpoint
(create_task, then on the success path update_prompt_id and
update_task_status PROCESSING, or on the template-missing path
update_task_status FAILED) and the websocket callback _on_ws_message. The
system below runs any interleaving of in-flight generate calls (each one a
thread advancing through its store operations in source order) and delivered
websocket events. A spawn is a no-op on a task id already used, mirroring
uuid4 uniqueness. -/

/-- The fixed fate of one generate call, decided by the collaborators it
meets: the workflow template is missing, queue_prompt raises, or
queue_prompt returns a prompt id. -/
inductive DispOutcome
  | templateMissing
  | engineFail (msg : String)
  | accepted (prompt_id : String)
deriving DecidableEq, Repr

/-- How far a generate call has advanced through its store operations. -/
inductive DispStage
  | created
  | promptSet
  | finished
deriving DecidableEq, Repr

structure DispThread where
  tid : String
  wfName : String
  outcome : DispOutcome
  stage : DispStage
deriving DecidableEq, Repr

structure SysState where
  store : Store
  threads : List DispThread
deriving DecidableEq, Repr

/-- One store operation of a generate call, following the source order:
after create, a template-missing call marks FAILED and finishes (the
HTTPException path performs no further store writes), an engine-failed call
finishes with no further store write (no FAILED mark in the source), an
accepted call records the prompt id and then sets PROCESSING. -/
def dispAdvance (cfg : Settings) (s : Store) (th : DispThread) (now : Nat) :
    Store × DispThread :=
  match th.stage, th.outcome with
  | .created, .templateMissing =>
    ((TaskManager.update_task_status cfg s th.tid .failed
        (some [("error", .jstr ("Workflow \x27" ++ th.wfName ++ "\x27 not found"))]) now).1,
      { th with stage := .finished })
  | .created, .engineFail _ => (s, { th with stage := .finished })
  | .created, .accepted prompt_id =>
    ((TaskManager.update_prompt_id cfg s th.tid prompt_id now).1,
      { th with stage := .promptSet })
  | .promptSet, .accepted _ =>
    ((TaskManager.update_task_status cfg s th.tid .processing none now).1,
      { th with stage := .finished })
  | _, _ => (s, th)

inductive SysAction
  | spawn (tid wfName : String) (params : Params) (outcome : DispOutcome) (now : Nat)
  | advance (i : Nat) (now : Nat)
  | deliver (msg : WsMsg) (ev : EngineView) (now : Nat)
deriving Repr

def sysStep (cfg : Settings) (sys : SysState) (a : SysAction) : SysState :=
  match a with
  | .spawn tid wfName params outcome now =>
    if (sys.store.lookup tid).isSome ∨ sys.threads.any (fun th => th.tid == tid) then sys
    else
      { store := (TaskManager.create_task cfg sys.store tid wfName params now).1
        threads := sys.threads ++ [⟨tid, wfName, outcome, .created⟩] }
  | .advance i now =>
    match sys.threads.get? i with
    | none => sys
    | some th =>
      let r := dispAdvance cfg sys.store th now
      -- the advanced call replaces its own thread record; since spawn keeps
      -- task ids unique across threads, replacing by tid is replacing the
      -- i-th element
      { store := r.1
        threads := sys.threads.map (fun t => if t.tid == th.tid then r.2 else t) }
  | .deliver msg ev now =>
    { sys with store := (onWsMessage cfg ev sys.store msg now).1 }

def initSys : SysState := ⟨⟨[]⟩, []⟩

def runSys (cfg : Settings) (sys : SysState) (acts : List SysAction) : SysState :=
  acts.foldl (sysStep cfg) sys

/-- A system state some interleaving of generate calls and delivered events
can produce from the empty store. -/
def Reachable (cfg : Settings) (sys : SysState) : Prop :=
  ∃ acts, runSys cfg initSys acts = sys

/-! ## Store lemmas -/

theorem Store.lookup_set_self (s : Store) (k : String) (e : Entry) :
    (s.set k e).lookup k = some e := by
  simp [Store.lookup, Store.set]

theorem find?_filter_ne (l : List (String × Entry)) (k k' : String)
    (h : k' ≠ k) :
    (l.filter (fun p => p.1 != k)).find? (fun p => p.1 == k') =
      l.find? (fun p => p.1 == k') := by
  induction l with
  | nil => rfl
  | cons p rest ih =>
    by_cases hp : p.1 = k
    · have h2 : (p.1 == k') = false := by
        simp only [beq_eq_false_iff_ne, ne_eq, hp]
        exact fun hkk => h hkk.symm
      rw [List.filter_cons, if_neg (by simp [hp])]
      rw [List.find?_cons, h2]
      exact ih
    · rw [List.filter_cons, if_pos (by simp [hp])]
      rw [List.find?_cons, List.find?_cons]
      cases hq : (p.1 == k') with
      | true => rfl
      | false => exact ih

theorem Store.lookup_set_ne (s : Store) (k k' : String) (e : Entry)
    (h : k' ≠ k) : (s.set k e).lookup k' = s.lookup k' := by
  simp only [Store.lookup, Store.set]
  have hk : ((k, e).1 == k') = false := by
    simp only [beq_eq_false_iff_ne, ne_eq]
    exact fun hkk => h hkk.symm
  rw [List.find?_cons, hk, find?_filter_ne _ _ _ h]

theorem Store.mem_set (s : Store) (k : String) (e : Entry) (p : String × Entry)
    (hp : p ∈ (s.set k e).entries) : p = (k, e) ∨ (p ∈ s.entries ∧ p.1 ≠ k) := by
  simp only [Store.set, List.mem_cons] at hp
  rcases hp with h | h
  · exact Or.inl h
  · right
    have := List.of_mem_filter h
    refine ⟨List.mem_of_mem_filter h, ?_⟩
    simpa using this

/-- The keys of the store, each appearing once. -/
def Store.KeysNodup (s : Store) : Prop := (s.entries.map Prod.fst).Nodup

theorem Store.keysNodup_set (s : Store) (k : String) (e : Entry)
    (h : s.KeysNodup) : (s.set k e).KeysNodup := by
  simp only [Store.KeysNodup, Store.set, List.map_cons]
  refine List.Nodup.cons ?_ ?_
  · intro hmem
    rcases List.mem_map.mp hmem with ⟨q, hq, hqk⟩
    have := List.of_mem_filter hq
    simp [hqk] at this
  · exact h.sublist (List.Sublist.map _ (List.filter_sublist _))

theorem Store.lookup_some_mem (s : Store) (k : String) (e : Entry)
    (h : s.lookup k = some e) : (k, e) ∈ s.entries := by
  simp only [Store.lookup, Option.map_eq_some'] at h
  rcases h with ⟨q, hq, hqe⟩
  have hmem := List.mem_of_find?_eq_some hq
  have hpred := List.find?_some hq
  have : q.1 = k := by simpa using hpred
  have hqpair : q = (k, e) := by
    cases q
    simp_all
  rwa [hqpair] at hmem

theorem find?_of_mem_nodup (l : List (String × Entry)) (k : String) (e : Entry)
    (hnd : (l.map Prod.fst).Nodup) (h : (k, e) ∈ l) :
    l.find? (fun p => p.1 == k) = some (k, e) := by
  induction l with
  | nil => simp at h
  | cons p rest ih =>
    simp only [List.map_cons, List.nodup_cons] at hnd
    rcases List.mem_cons.mp h with rfl | hmem
    · exact List.find?_cons_of_pos _ (by simp)
    · have hp1 : p.1 ≠ k := by
        intro hk
        exact hnd.1 (hk ▸ List.mem_map.mpr ⟨(k, e), hmem, rfl⟩)
      rw [List.find?_cons_of_neg _ (by simp [hp1])]
      exact ih hnd.2 hmem

theorem Store.mem_lookup (s : Store) (k : String) (e : Entry)
    (hnd : s.KeysNodup) (h : (k, e) ∈ s.entries) : s.lookup k = some e := by
  simp only [Store.lookup]
  rw [find?_of_mem_nodup s.entries k e hnd h]
  rfl

theorem redisRoundtrip_id (t : Task) : (redisRoundtrip t).id = t.id := rfl

theorem redisRoundtrip_status (t : Task) :
    (redisRoundtrip t).status = t.status := rfl

theorem redisRoundtrip_promptIdStr (t : Task) :
    promptIdStr (redisRoundtrip t).prompt_id = promptIdStr t.prompt_id := by
  simp only [redisRoundtrip, promptIdStr]
  by_cases h : t.prompt_id = some ""
  · simp [h, promptIdStr]
  · simp [h]

/-! ## Concrete fixtures shared by witnesses and counterexamples -/

/-- Settings with no webhook destination configured. -/
def cfgTest : Settings :=
  { TASK_TTL_SECONDS := 100, PROXY_WEBHOOK_URL := "", PROXY_WEBHOOK_SECRET := "" }

/-- Settings with a webhook destination configured. -/
def cfgHook : Settings :=
  { TASK_TTL_SECONDS := 100, PROXY_WEBHOOK_URL := "http://proxy.example/webhook"
    PROXY_WEBHOOK_SECRET := "secret" }

/-- An executor for a template with one KSampler-like node, id 3, whose
widget inputs are seed and steps with widgets_values [0, 20]. -/
def basicExec : WExec := mkExecutor
  [{ nid := 3
     inputs := some [{ widget := some (some "seed") }, { widget := some (some "steps") }]
     widgets_values := some [.jnum 0, .jnum 20] }]

/-- A loaded registry holding the basic workflow. -/
def basicRegistry : List (String × WExec) := [("basic", basicExec)]

/-- The modifications payload of the specification scenario. -/
def seedMods : Params := [("3", [("seed", .jnum 42)])]

/-- A store holding one freshly created task t1 (created at tick 0, TTL 100,
so its record expires at 100 until some operation refreshes it). -/
def storeT1 : Store := (TaskManager.create_task cfgTest ⟨[]⟩ "t1" "basic" [] 0).1

/-- An engine view with no history for the prompt. -/
def evEmpty : EngineView := { historyHas := false, outputImages := [], processedImages := [] }

/-- An engine view whose history confirms completion with no output images. -/
def evDone : EngineView := { historyHas := true, outputImages := [], processedImages := [] }

/-! ## C6: progress clamping -/

/-- C6: for every integer input to update_task_progress on an existing task,
the stored progress value afterwards lies in [0, 100]; in particular an
input of 150 stores 100 and an input of -5 stores 0. -/
theorem C6_progress_clamped (s : Store) (tid : String) (p : Int) (now : Nat)
    (h : (s.lookup tid).isSome) :
    ∃ e, (TaskManager.update_task_progress s tid p now).1.lookup tid = some e ∧
      e.task.progress = max 0 (min 100 p) ∧
      0 ≤ e.task.progress ∧ e.task.progress ≤ 100 ∧
      (p = 150 → e.task.progress = 100) ∧ (p = -5 → e.task.progress = 0) := by
  obtain ⟨e0, he0⟩ := Option.isSome_iff_exists.mp h
  unfold TaskManager.update_task_progress
  rw [he0]
  refine ⟨_, Store.lookup_set_self _ _ _, rfl, le_max_left _ _, ?_, ?_, ?_⟩
  · exact max_le (by norm_num) (min_le_left _ _)
  · rintro rfl; norm_num
  · rintro rfl; norm_num

/-- C6 witness: the clamping theorem applied to the concrete store storeT1
at input 150. -/
theorem C6_progress_clamped_witness :
    (storeT1.lookup "t1").isSome = true ∧
    (∃ e, (TaskManager.update_task_progress storeT1 "t1" 150 5).1.lookup "t1" = some e ∧
      e.task.progress = max 0 (min 100 150) ∧
      0 ≤ e.task.progress ∧ e.task.progress ≤ 100 ∧
      ((150 : Int) = 150 → e.task.progress = 100) ∧
      ((150 : Int) = -5 → e.task.progress = 0)) :=
  ⟨by decide, C6_progress_clamped storeT1 "t1" 150 5 (by decide)⟩

/-! ## C3: which mutating operations refresh the TTL -/

/-- C3 counterexample: with TTL 100, the task created at tick 0 expires at
100; a progress update at tick 600 leaves the expiry at 100 (no expire call
in update_task_progress), while a status update at tick 600 moves it to 700.
So not every mutating operation restarts the expiry window. -/
theorem C3_ttl_counterexample :
    ((TaskManager.update_task_progress storeT1 "t1" 50 600).1.lookup "t1").map
        (fun e => (e.task.updated_at, e.expiresAt)) = some (600, 100) ∧
    ((TaskManager.update_task_status cfgTest storeT1 "t1" .processing none 600).1.lookup "t1").map
        (fun e => e.expiresAt) = some 700 ∧
    (100 : Nat) ≠ 600 + cfgTest.TASK_TTL_SECONDS := by
  decide

/-- C3 amended: every mutating TaskStore operation refreshes updated_at, and
create_task, update_task_status, update_task_result and update_prompt_id
also refresh the TTL (expiry becomes now + TTL), but update_task_progress
leaves the expiry instant unchanged, so a task receiving only progress
updates still expires at its previous deadline. -/
theorem C3_ttl_amended (cfg : Settings) (s : Store) (tid pid wf : String)
    (p : Int) (st : TaskStatus) (r : ResultMap) (ores : Option ResultMap)
    (params : Params) (now : Nat) (h : (s.lookup tid).isSome) :
    ((TaskManager.update_task_progress s tid p now).1.lookup tid).map
        (fun e => e.expiresAt) = (s.lookup tid).map (fun e => e.expiresAt) ∧
    ((TaskManager.update_task_progress s tid p now).1.lookup tid).map
        (fun e => e.task.updated_at) = some now ∧
    ((TaskManager.update_task_status cfg s tid st ores now).1.lookup tid).map
        (fun e => (e.task.updated_at, e.expiresAt)) =
      some (now, now + cfg.TASK_TTL_SECONDS) ∧
    ((TaskManager.update_task_result cfg s tid r now).1.lookup tid).map
        (fun e => (e.task.updated_at, e.expiresAt)) =
      some (now, now + cfg.TASK_TTL_SECONDS) ∧
    ((TaskManager.update_prompt_id cfg s tid pid now).1.lookup tid).map
        (fun e => (e.task.updated_at, e.expiresAt)) =
      some (now, now + cfg.TASK_TTL_SECONDS) ∧
    ((TaskManager.create_task cfg s tid wf params now).1.lookup tid).map
        (fun e => (e.task.updated_at, e.expiresAt)) =
      some (now, now + cfg.TASK_TTL_SECONDS) := by
  obtain ⟨e0, he0⟩ := Option.isSome_iff_exists.mp h
  unfold TaskManager.update_task_progress TaskManager.update_task_status
    TaskManager.update_task_result TaskManager.update_prompt_id
    TaskManager.create_task
  rw [he0]
  simp [Store.lookup_set_self]

/-- C3 amended witness: the theorem applied to the concrete store storeT1 at
tick 600. -/
theorem C3_ttl_amended_witness :
    (storeT1.lookup "t1").isSome = true ∧
    (((TaskManager.update_task_progress storeT1 "t1" 50 600).1.lookup "t1").map
        (fun e => e.expiresAt) = (storeT1.lookup "t1").map (fun e => e.expiresAt) ∧
    ((TaskManager.update_task_progress storeT1 "t1" 50 600).1.lookup "t1").map
        (fun e => e.task.updated_at) = some 600 ∧
    ((TaskManager.update_task_status cfgTest storeT1 "t1" .processing none 600).1.lookup "t1").map
        (fun e => (e.task.updated_at, e.expiresAt)) =
      some (600, 600 + cfgTest.TASK_TTL_SECONDS) ∧
    ((TaskManager.update_task_result cfgTest storeT1 "t1" [] 600).1.lookup "t1").map
        (fun e => (e.task.updated_at, e.expiresAt)) =
      some (600, 600 + cfgTest.TASK_TTL_SECONDS) ∧
    ((TaskManager.update_prompt_id cfgTest storeT1 "t1" "p1" 600).1.lookup "t1").map
        (fun e => (e.task.updated_at, e.expiresAt)) =
      some (600, 600 + cfgTest.TASK_TTL_SECONDS) ∧
    ((TaskManager.create_task cfgTest storeT1 "t1" "basic" [] 600).1.lookup "t1").map
        (fun e => (e.task.updated_at, e.expiresAt)) =
      some (600, 600 + cfgTest.TASK_TTL_SECONDS)) :=
  ⟨by decide, C3_ttl_amended cfgTest storeT1 "t1" "p1" "basic" 50 .processing [] none [] 600 (by decide)⟩

/-! ## C4: progress events with max = 0 -/

/-- C4: a progress event whose payload has max equal to 0 leaves the store
unchanged and schedules nothing: the division int((value / max) * 100)
raises a ZeroDivisionError before any store write, the blanket except of
_on_ws_message catches it, and the handler returns normally, so no exception
escapes and the correlated task keeps its progress. -/
theorem C4_progress_max_zero (cfg : Settings) (ev : EngineView) (s : Store)
    (pid : Option String) (v : Int) (now : Nat) :
    onWsMessage cfg ev s (.progress pid v 0) now = (s, []) := by
  unfold onWsMessage onWsMessageBody
  cases pid with
  | none => rfl
  | some p =>
    by_cases hp : p = ""
    · simp [hp]
    · simp only [if_neg hp]
      cases h : TaskManager.get_task_by_prompt_id s p with
      | none => simp [h]
      | some task => simp [h, progressCalc]

/-! ## C7: reconnect backoff -/

theorem delayAfter_le (n : Nat) : (delayAfter n).reconnect_delay ≤ 60 := by
  induction n with
  | zero => norm_num [delayAfter, relayInit]
  | succ n _ => exact min_le_right _ _

theorem waitSeq_eq_delay (n : Nat) :
    waitSeq n = (delayAfter n).reconnect_delay := by
  unfold waitSeq failedIteration
  exact min_eq_left (delayAfter_le n)

/-- C7: when every reconnection attempt fails, the waits slept before
successive attempts are 5, 7.5, 11.25, ..., each next wait being the
previous one multiplied by 1.5 and capped at 60; and a successful connection
(_on_ws_open) resets the delay to the floor value 5. -/
theorem C7_backoff_sequence :
    waitSeq 0 = 5 ∧ waitSeq 1 = 15 / 2 ∧ waitSeq 2 = 45 / 4 ∧
    (∀ n, waitSeq (n + 1) = min (waitSeq n * (3 / 2)) 60) ∧
    (∀ n, waitSeq n ≤ 60) ∧
    (∀ c, (onWsOpen c).reconnect_delay = 5) := by
  refine ⟨by norm_num [waitSeq, delayAfter, failedIteration, relayInit, min_def],
    by norm_num [waitSeq, delayAfter, failedIteration, relayInit, min_def],
    by norm_num [waitSeq, delayAfter, failedIteration, relayInit, min_def],
    ?_, ?_, fun c => rfl⟩
  · intro n
    rw [waitSeq_eq_delay (n + 1), waitSeq_eq_delay n]
    rfl
  · intro n
    rw [waitSeq_eq_delay n]
    exact delayAfter_le n

/-! ## C9: webhook notification trigger -/

/-- C9: update_task_status schedules a webhook notification attempt exactly
when the record exists, the new status is COMPLETED or FAILED, and
PROXY_WEBHOOK_URL is configured; the store write and the returned success
flag are the same whatever the webhook configuration (and the delivery
outcome is not even an input of the store transition); a relay progress
event never schedules a notification. update_task_result and
update_task_progress contain no webhook call at all (their return types
carry no notification). -/
theorem C9_webhook_trigger (cfg cfg2 : Settings) (s : Store) (tid : String)
    (st : TaskStatus) (r : Option ResultMap) (now : Nat) (ev : EngineView)
    (httl : cfg.TASK_TTL_SECONDS = cfg2.TASK_TTL_SECONDS) :
    ((TaskManager.update_task_status cfg s tid st r now).2.2.isSome ↔
      (cfg.PROXY_WEBHOOK_URL ≠ "" ∧ (s.lookup tid).isSome ∧
        (st = .completed ∨ st = .failed))) ∧
    (TaskManager.update_task_status cfg s tid st r now).1 =
      (TaskManager.update_task_status cfg2 s tid st r now).1 ∧
    (TaskManager.update_task_status cfg s tid st r now).2.1 =
      (TaskManager.update_task_status cfg2 s tid st r now).2.1 ∧
    (∀ pid v m, (onWsMessage cfg ev s (.progress pid v m) now).2 = []) := by
  refine ⟨?_, ?_, ?_, ?_⟩
  · unfold TaskManager.update_task_status
    cases he : s.lookup tid with
    | none => simp
    | some e =>
      simp only [Option.isSome_some, true_and]
      by_cases hc : cfg.PROXY_WEBHOOK_URL ≠ "" ∧ (st = .completed ∨ st = .failed)
      · simp [hc]
      · simp only [if_neg hc, Option.isSome_none]
        simp only [not_and_or] at hc
        constructor
        · intro hfalse; exact absurd hfalse (by simp)
        · intro ⟨h1, h2⟩
          rcases hc with hc | hc
          · exact absurd h1 (by simpa using hc)
          · exact absurd h2 hc
  · unfold TaskManager.update_task_status
    cases he : s.lookup tid with
    | none => rfl
    | some e => rw [httl]
  · unfold TaskManager.update_task_status
    cases he : s.lookup tid with
    | none => rfl
    | some e => rfl
  · intro pid v m
    unfold onWsMessage onWsMessageBody
    cases pid with
    | none => rfl
    | some p =>
      by_cases hp : p = ""
      · simp [hp]
      · simp only [if_neg hp]
        cases h : TaskManager.get_task_by_prompt_id s p with
        | none => simp [h]
        | some task =>
          cases hc : progressCalc v m with
          | error e => simp [h, hc]
          | ok prog => simp [h, hc]

/-- C9 witness: the trigger theorem applied with webhook settings cfgHook
against cfgTest (same TTL) on the concrete store. -/
theorem C9_webhook_trigger_witness :
    cfgHook.TASK_TTL_SECONDS = cfgTest.TASK_TTL_SECONDS ∧
    (((TaskManager.update_task_status cfgHook storeT1 "t1" .completed none 5).2.2.isSome ↔
      (cfgHook.PROXY_WEBHOOK_URL ≠ "" ∧ (storeT1.lookup "t1").isSome ∧
        (TaskStatus.completed = .completed ∨ TaskStatus.completed = .failed))) ∧
    (TaskManager.update_task_status cfgHook storeT1 "t1" .completed none 5).1 =
      (TaskManager.update_task_status cfgTest storeT1 "t1" .completed none 5).1 ∧
    (TaskManager.update_task_status cfgHook storeT1 "t1" .completed none 5).2.1 =
      (TaskManager.update_task_status cfgTest storeT1 "t1" .completed none 5).2.1 ∧
    (∀ pid v m, (onWsMessage cfgHook evEmpty storeT1 (.progress pid v m) 5).2 = [])) :=
  ⟨by decide, C9_webhook_trigger cfgHook cfgTest storeT1 "t1" .completed none 5 evEmpty (by decide)⟩

/-! ## C2: engine submission failure -/

/-- C2 counterexample: when queue_prompt raises (engine unreachable), the
generic failure is surfaced as a 500 HTTPException, but the already-created
task is not marked FAILED: it stays QUEUED with no result attached, because
the exception skips the inner except clauses (which match only
WorkflowNotFoundError and WorkflowModificationError) and the outer except
performs no store write. -/
theorem C2_engine_failure_counterexample :
    (generate cfgTest basicRegistry (.err "connection refused") ⟨[]⟩ "basic"
        seedMods "t1" 0).reply =
      .httpError 500 "Error generating output: connection refused" ∧
    ((generate cfgTest basicRegistry (.err "connection refused") ⟨[]⟩ "basic"
        seedMods "t1" 0).store.lookup "t1").map
      (fun e => (e.task.status, e.task.result)) = some (.queued, none) ∧
    ¬(((generate cfgTest basicRegistry (.err "connection refused") ⟨[]⟩ "basic"
        seedMods "t1" 0).store.lookup "t1").map (fun e => e.task.status) =
      some .failed) := by
  decide

/-- C2 amended: when queue_prompt raises for a reason other than template
resolution or modification validation, generate surfaces the generic 500
failure carrying the error message, but the created task is left QUEUED with
no result and no FAILED mark (and no notification is scheduled); only the
template-not-found path marks the task FAILED. -/
theorem C2_engine_failure_amended (cfg : Settings)
    (reg : List (String × WExec)) (s : Store) (wf : String) (mods : Params)
    (tid m : String) (now : Nat) (ex : WExec)
    (hreg : lookupAssoc reg wf = some ex) :
    (generate cfg reg (.err m) s wf mods tid now).reply =
      .httpError 500 ("Error generating output: " ++ m) ∧
    ((generate cfg reg (.err m) s wf mods tid now).store.lookup tid).map
      (fun e => (e.task.status, e.task.result)) = some (.queued, none) ∧
    (generate cfg reg (.err m) s wf mods tid now).notifications = [] := by
  unfold generate TaskManager.create_task
  rw [hreg]
  simp [Store.lookup_set_self]

/-- C2 amended witness: the theorem at the concrete registry and store. -/
theorem C2_engine_failure_amended_witness :
    lookupAssoc basicRegistry "basic" = some basicExec ∧
    ((generate cfgTest basicRegistry (.err "timed out") ⟨[]⟩ "basic" seedMods
        "t9" 3).reply = .httpError 500 ("Error generating output: " ++ "timed out") ∧
    ((generate cfgTest basicRegistry (.err "timed out") ⟨[]⟩ "basic" seedMods
        "t9" 3).store.lookup "t9").map
      (fun e => (e.task.status, e.task.result)) = some (.queued, none) ∧
    (generate cfgTest basicRegistry (.err "timed out") ⟨[]⟩ "basic" seedMods
        "t9" 3).notifications = []) :=
  ⟨by decide, C2_engine_failure_amended cfgTest basicRegistry ⟨[]⟩ "basic"
    seedMods "t9" "timed out" 3 basicExec (by decide)⟩

/-! ## C5: the response of a successful submission -/

/-- C5 counterexample: for the specification scenario (workflow basic,
modifications on node 3, engine accepts), generate returns a body whose
status field is the literal string queued, not PROCESSING (even though the
store record is set to PROCESSING before returning). -/
theorem C5_response_counterexample :
    (generate cfgTest basicRegistry (.ok "p1") ⟨[]⟩ "basic" seedMods "t1" 0).reply =
      .ok { task_id := "t1", status := "queued", progress := 0
            message := "Workflow successfully queued. Use the /generation/tasks/\x7btask_id\x7d endpoint to track progress." } ∧
    ("queued" : String) ≠ "PROCESSING" ∧ ("queued" : String) ≠ "processing" := by
  decide

/-- C5 amended: on an accepted submission the response body carries status
queued (with progress 0), while the store is set to PROCESSING, so an
immediately following get_task_status reports status PROCESSING with
progress 0. -/
theorem C5_generate_amended (cfg : Settings) (reg : List (String × WExec))
    (s : Store) (wf : String) (mods : Params) (tid pid : String) (now : Nat)
    (ex : WExec) (hreg : lookupAssoc reg wf = some ex) :
    (generate cfg reg (.ok pid) s wf mods tid now).reply =
      .ok { task_id := tid, status := "queued", progress := 0
            message := "Workflow successfully queued. Use the /generation/tasks/\x7btask_id\x7d endpoint to track progress." } ∧
    get_task_status (generate cfg reg (.ok pid) s wf mods tid now).store tid =
      .ok tid .processing 0 none (some (.jstr "Task is currently processing")) := by
  unfold generate TaskManager.create_task TaskManager.update_prompt_id
    TaskManager.update_task_status get_task_status TaskManager.get_task
  rw [hreg]
  simp [Store.lookup_set_self, redisRoundtrip, truthyResult]

/-- C5 amended witness: the theorem at the concrete scenario of the
specification (workflow basic, modifications node 3 seed 42). -/
theorem C5_generate_amended_witness :
    lookupAssoc basicRegistry "basic" = some basicExec ∧
    ((generate cfgTest basicRegistry (.ok "p1") ⟨[]⟩ "basic" seedMods "t1" 0).reply =
      .ok { task_id := "t1", status := "queued", progress := 0
            message := "Workflow successfully queued. Use the /generation/tasks/\x7btask_id\x7d endpoint to track progress." } ∧
    get_task_status (generate cfgTest basicRegistry (.ok "p1") ⟨[]⟩ "basic" seedMods "t1" 0).store "t1" =
      .ok "t1" .processing 0 none (some (.jstr "Task is currently processing"))) :=
  ⟨by decide, C5_generate_amended cfgTest basicRegistry ⟨[]⟩ "basic" seedMods
    "t1" "p1" 0 basicExec (by decide)⟩

/-! ## C8: malformed modification payloads -/

/-- C8 counterexample: a modification targeting node id 999, absent from the
basic template, raises nothing: update_workflow returns with the executor
unchanged, generate proceeds to queue the prompt, answers with the normal
success body, and the task ends PROCESSING, never FAILED; no client error is
surfaced. -/
theorem C8_validation_counterexample :
    (update_workflow basicExec [("999", [("seed", .jnum 1)])]).2 = basicExec ∧
    (update_workflow basicExec [("999", [("seed", .jnum 1)])]).1 =
      basicExec.workflow_nodes ∧
    (generate cfgTest basicRegistry (.ok "p1") ⟨[]⟩ "basic"
        [("999", [("seed", .jnum 1)])] "t1" 0).reply =
      .ok { task_id := "t1", status := "queued", progress := 0
            message := "Workflow successfully queued. Use the /generation/tasks/\x7btask_id\x7d endpoint to track progress." } ∧
    ((generate cfgTest basicRegistry (.ok "p1") ⟨[]⟩ "basic"
        [("999", [("seed", .jnum 1)])] "t1" 0).store.lookup "t1").map
      (fun e => e.task.status) = some .processing := by
  decide

/-- The widget-index search of update_workflow (base.py lines 123-128),
named for use in statements: the position of the first input whose widget
dict names the key; none when the node has no inputs list or no input
matches. -/
def widget_index_of (node : WNode) (key : String) : Option Nat :=
  match node.inputs with
  | some inputs => inputs.findIdx? (fun d => d.widget == some (some key))
  | none => none

theorem map_fst_nodup_inj {α β : Type} (l : List (α × β))
    (h : (l.map Prod.fst).Nodup) :
    ∀ a ∈ l, ∀ b ∈ l, a.1 = b.1 → a = b := by
  induction l with
  | nil => intro a ha; simp at ha
  | cons c rest ih =>
    simp only [List.map_cons, List.nodup_cons] at h
    intro a ha b hb heq
    rcases List.mem_cons.mp ha with rfl | ha' <;>
      rcases List.mem_cons.mp hb with rfl | hb'
    · rfl
    · exact absurd (List.mem_map.mpr ⟨b, hb', heq.symm⟩) h.1
    · exact absurd (List.mem_map.mpr ⟨a, ha', heq⟩) h.1
    · exact ih h.2 a ha' b hb' heq

theorem heapSet_self (h : List (Nat × WNode)) (r : Nat) (node : WNode)
    (hnd : (h.map Prod.fst).Nodup) (hget : heapGet h r = some node) :
    heapSet h r node = h := by
  have huniq : ∀ q ∈ h, q.1 = r → q.2 = node := by
    unfold heapGet at hget
    rcases Option.map_eq_some'.mp hget with ⟨w, hw, hwe⟩
    have hwmem := List.mem_of_find?_eq_some hw
    have hwr : w.1 = r := by simpa using List.find?_some hw
    intro q hq hqr
    have : q = w := map_fst_nodup_inj h hnd q hq w hwmem (hqr.trans hwr.symm)
    rw [this, hwe]
  unfold heapSet
  have hmap : ∀ q ∈ h, (if q.1 == r then (r, node) else q) = (fun q => q) q := by
    intro q hq
    by_cases hqr : q.1 = r
    · rw [if_pos (by simp [hqr])]
      have h2 := huniq q hq hqr
      rw [← h2, ← hqr]
    · rw [if_neg (by simp [hqr])]
  rw [List.map_congr_left hmap]
  exact List.map_id' h

/-- A field override whose key matches no widget input of the node leaves
the node object unchanged: each loop iteration of update_workflow finds
widget_index None and skips the assignment. -/
theorem applyNodeUpdates_no_match (node : WNode)
    (updates : List (String × JVal))
    (h : ∀ kv ∈ updates, widget_index_of node kv.1 = none) :
    applyNodeUpdates node updates = node := by
  induction updates with
  | nil => rfl
  | cons kv rest ih =>
    have h0 : widget_index_of node kv.1 = none := h kv (List.mem_cons_self _ _)
    have hstep : applyNodeUpdates node [kv] = node := by
      simp only [applyNodeUpdates, List.foldl_cons, List.foldl_nil]
      simp only [widget_index_of] at h0
      simp [h0]
    have hrest : applyNodeUpdates node rest = node :=
      ih (fun kv' hkv' => h kv' (List.mem_cons_of_mem _ hkv'))
    show List.foldl _ node (kv :: rest) = node
    rw [List.foldl_cons]
    show List.foldl _ (applyNodeUpdates node [kv]) rest = node
    rw [hstep]
    exact hrest

/-- C8 amended: modifications malformed with respect to the template are
silently skipped by update_workflow: a modification whose node identifier is
absent from normalized_nodes applies nothing, and so does a field override
whose key matches no widget input of its (present) node; when every
modification is of one of those kinds the returned payload and the executor
are unchanged, no error is raised, so no ValidationError reaches the caller
and the task is not marked FAILED (WorkflowModificationError is declared and
handled in the router but nothing raises it). The heap hypothesis states
that node references are distinct addresses, as Python object identity
guarantees and mkExecutor produces. -/
theorem C8_malformed_mods_ignored (ex : WExec) (mods : Params)
    (hnd : (ex.heap.map Prod.fst).Nodup)
    (h : ∀ m ∈ mods, ∀ r ∈ lookupAssoc ex.normalized_nodes m.1,
      ∀ node ∈ heapGet ex.heap r,
        ∀ kv ∈ m.2, widget_index_of node kv.1 = none) :
    update_workflow ex mods = (ex.workflow_nodes, ex) := by
  unfold update_workflow
  have hfold : ∀ (ms : List (String × List (String × JVal))),
      (∀ m ∈ ms, ∀ r ∈ lookupAssoc ex.normalized_nodes m.1,
        ∀ node ∈ heapGet ex.heap r,
          ∀ kv ∈ m.2, widget_index_of node kv.1 = none) →
      ms.foldl
        (fun h m =>
          match lookupAssoc ex.normalized_nodes m.1 with
          | none => h
          | some r =>
            match heapGet h r with
            | none => h
            | some node =>
              match node.widgets_values with
              | some _ => heapSet h r (applyNodeUpdates node m.2)
              | none => h)
        ex.heap = ex.heap := by
    intro ms
    induction ms with
    | nil => intro _; rfl
    | cons m rest ih =>
      intro hall
      rw [List.foldl_cons]
      have hm := hall m (List.mem_cons_self _ _)
      have hstep :
          (match lookupAssoc ex.normalized_nodes m.1 with
           | none => ex.heap
           | some r =>
             match heapGet ex.heap r with
             | none => ex.heap
             | some node =>
               match node.widgets_values with
               | some _ => heapSet ex.heap r (applyNodeUpdates node m.2)
               | none => ex.heap) = ex.heap := by
        cases hl : lookupAssoc ex.normalized_nodes m.1 with
        | none => rfl
        | some r =>
          show (match heapGet ex.heap r with
                | none => ex.heap
                | some node =>
                  match node.widgets_values with
                  | some _ => heapSet ex.heap r (applyNodeUpdates node m.2)
                  | none => ex.heap) = ex.heap
          cases hg : heapGet ex.heap r with
          | none => rfl
          | some node =>
            have hm2 : ∀ kv ∈ m.2, widget_index_of node kv.1 = none :=
              hm r (by rw [hl]; rfl) node (by rw [hg]; rfl)
            show (match node.widgets_values with
                  | some _ => heapSet ex.heap r (applyNodeUpdates node m.2)
                  | none => ex.heap) = ex.heap
            cases hw : node.widgets_values with
            | none => rfl
            | some ws =>
              show heapSet ex.heap r (applyNodeUpdates node m.2) = ex.heap
              rw [applyNodeUpdates_no_match node m.2 hm2]
              exact heapSet_self ex.heap r node hnd hg
      rw [hstep]
      exact ih (fun m' hm' => hall m' (List.mem_cons_of_mem _ hm'))
  rw [hfold mods h]

/-- C8 amended witness: the theorem at the basic template with one
modification for the absent node 999 and one for the present node 3 whose
key text matches no widget input (the widgets are seed and steps). -/
theorem C8_malformed_mods_ignored_witness :
    (basicExec.heap.map Prod.fst).Nodup ∧
    (∀ m ∈ ([("999", [("seed", JVal.jnum 1)]),
             ("3", [("text", JVal.jnum 7)])] : Params),
      ∀ r ∈ lookupAssoc basicExec.normalized_nodes m.1,
        ∀ node ∈ heapGet basicExec.heap r,
          ∀ kv ∈ m.2, widget_index_of node kv.1 = none) ∧
    update_workflow basicExec
        [("999", [("seed", .jnum 1)]), ("3", [("text", .jnum 7)])] =
      (basicExec.workflow_nodes, basicExec) :=
  ⟨by decide, by decide,
    C8_malformed_mods_ignored basicExec
      [("999", [("seed", .jnum 1)]), ("3", [("text", .jnum 7)])]
      (by decide) (by decide)⟩

/-! ## C10: update_workflow and the stored template -/

/-- The template as stored in the executor, read through its node
references: what a later call starts from. -/
def storedNodes (ex : WExec) : List (Option WNode) :=
  ex.workflow_nodes.map (heapGet ex.heap)

/-- C10 counterexample: applying the seed modification through
update_workflow mutates the stored template in place: the node object the
executor keeps (shared with the returned payload through the shallow
workflow.copy()) now carries widgets_values [42, 20] instead of the pristine
[0, 20], so the executor state differs from the pristine one. -/
theorem C10_template_mutation_counterexample :
    storedNodes basicExec =
      [some { nid := 3
              inputs := some [{ widget := some (some "seed") }, { widget := some (some "steps") }]
              widgets_values := some [.jnum 0, .jnum 20] }] ∧
    storedNodes (update_workflow basicExec seedMods).2 =
      [some { nid := 3
              inputs := some [{ widget := some (some "seed") }, { widget := some (some "steps") }]
              widgets_values := some [.jnum 42, .jnum 20] }] ∧
    (update_workflow basicExec seedMods).2 ≠ basicExec := by
  decide

/-- C10 amended: update_workflow returns a payload that shares the node
objects with the stored template (the copy is shallow: the returned node
references are exactly the stored ones, and the node index is unchanged),
and applying modifications mutates those shared node objects in place, so
the stored template changes and a second call starts from the mutated
template, seeing the first call-level modification accumulated: after
applying seed 42 and then steps 99 to the basic template, the stored node
carries [42, 99], not the pristine seed value. -/
theorem C10_shallow_copy_amended :
    (∀ (ex : WExec) (mods : Params),
      (update_workflow ex mods).1 = ex.workflow_nodes ∧
      (update_workflow ex mods).2.workflow_nodes = ex.workflow_nodes ∧
      (update_workflow ex mods).2.normalized_nodes = ex.normalized_nodes) ∧
    storedNodes (update_workflow (update_workflow basicExec seedMods).2
        [("3", [("steps", .jnum 99)])]).2 =
      [some { nid := 3
              inputs := some [{ widget := some (some "seed") }, { widget := some (some "steps") }]
              widgets_values := some [.jnum 42, .jnum 99] }] := by
  exact ⟨fun ex mods => ⟨rfl, rfl, rfl⟩, by decide⟩

/-! ## C1: status transitions

The race in the counterexample below: a submission is accepted by the
engine, the dispatcher records the prompt id, and the relay delivers the
completion event for that prompt id before the dispatcher reaches its
unconditional PROCESSING write. -/

def raceTrace : List SysAction :=
  [ .spawn "t1" "basic" [] (.accepted "p1") 0
  , .advance 0 1
  , .deliver (.executing (some "p1") none) evDone 2
  , .advance 0 3 ]

/-- C1 counterexample: on the race trace the task moves QUEUED to COMPLETED
(an edge outside the claimed set) when the completion event lands before the
PROCESSING write, and then COMPLETED to PROCESSING when the dispatcher
performs its unconditional update_task_status call, so a later call does
change the status of a task that already reached COMPLETED. -/
theorem C1_terminal_overwrite_counterexample :
    ((runSys cfgTest initSys (raceTrace.take 2)).store.lookup "t1").map
      (fun e => e.task.status) = some .queued ∧
    ((runSys cfgTest initSys (raceTrace.take 3)).store.lookup "t1").map
      (fun e => e.task.status) = some .completed ∧
    ((runSys cfgTest initSys raceTrace).store.lookup "t1").map
      (fun e => e.task.status) = some .processing := by
  decide

/-- How one relay-driven store operation can evolve an entry: the id is
kept, the prompt_id is kept or dropped to none, the status is kept or set to
st. -/
def EntryStep (st : TaskStatus) (old new : Entry) : Prop :=
  new.task.id = old.task.id ∧
  (new.task.prompt_id = old.task.prompt_id ∨ new.task.prompt_id = none) ∧
  (new.task.status = old.task.status ∨ new.task.status = st)

theorem EntryStep.refl (st : TaskStatus) (e : Entry) : EntryStep st e e :=
  ⟨rfl, Or.inl rfl, Or.inl rfl⟩

theorem EntryStep.trans (st : TaskStatus) (e1 e2 e3 : Entry)
    (h1 : EntryStep st e1 e2) (h2 : EntryStep st e2 e3) :
    EntryStep st e1 e3 := by
  obtain ⟨hi1, hp1, hs1⟩ := h1
  obtain ⟨hi2, hp2, hs2⟩ := h2
  refine ⟨hi2.trans hi1, ?_, ?_⟩
  · rcases hp2 with h | h
    · rw [h]; exact hp1
    · exact Or.inr h
  · rcases hs2 with h | h
    · rw [h]; exact hs1
    · exact Or.inr h

/-- Every entry after update_task_progress descends from an entry of the
original store at the same key by an EntryStep (the status is untouched; the
prompt_id only changes by the roundtrip collapse of some-empty to none). -/
theorem entries_update_task_progress (s : Store) (tid : String) (p : Int)
    (now : Nat) (st : TaskStatus) :
    ∀ q ∈ (TaskManager.update_task_progress s tid p now).1.entries,
      ∃ e0, (q.1, e0) ∈ s.entries ∧ EntryStep st e0 q.2 := by
  intro q hq
  unfold TaskManager.update_task_progress at hq
  cases hl : s.lookup tid with
  | none =>
    rw [hl] at hq
    exact ⟨q.2, hq, EntryStep.refl st q.2⟩
  | some e =>
    rw [hl] at hq
    rcases Store.mem_set _ _ _ _ hq with rfl | ⟨hmem, _⟩
    · refine ⟨e, Store.lookup_some_mem _ _ _ hl, rfl, ?_, Or.inl rfl⟩
      simp only [redisRoundtrip]
      by_cases hpe : e.task.prompt_id = some ""
      · exact Or.inr (by simp [hpe])
      · exact Or.inl (by simp [hpe])
    · exact ⟨q.2, hmem, EntryStep.refl st q.2⟩

/-- Every entry after update_task_result descends from an entry of the
original store at the same key by an EntryStep. -/
theorem entries_update_task_result (cfg : Settings) (s : Store)
    (tid : String) (r : ResultMap) (now : Nat) (st : TaskStatus) :
    ∀ q ∈ (TaskManager.update_task_result cfg s tid r now).1.entries,
      ∃ e0, (q.1, e0) ∈ s.entries ∧ EntryStep st e0 q.2 := by
  intro q hq
  unfold TaskManager.update_task_result at hq
  cases hl : s.lookup tid with
  | none =>
    rw [hl] at hq
    exact ⟨q.2, hq, EntryStep.refl st q.2⟩
  | some e =>
    rw [hl] at hq
    rcases Store.mem_set _ _ _ _ hq with rfl | ⟨hmem, _⟩
    · exact ⟨e, Store.lookup_some_mem _ _ _ hl, rfl, Or.inl rfl, Or.inl rfl⟩
    · exact ⟨q.2, hmem, EntryStep.refl st q.2⟩

/-- Every entry after update_task_status with status st descends from an
entry of the original store at the same key by an EntryStep st. -/
theorem entries_update_task_status (cfg : Settings) (s : Store)
    (tid : String) (st : TaskStatus) (r : Option ResultMap) (now : Nat) :
    ∀ q ∈ (TaskManager.update_task_status cfg s tid st r now).1.entries,
      ∃ e0, (q.1, e0) ∈ s.entries ∧ EntryStep st e0 q.2 := by
  intro q hq
  unfold TaskManager.update_task_status at hq
  cases hl : s.lookup tid with
  | none =>
    rw [hl] at hq
    exact ⟨q.2, hq, EntryStep.refl st q.2⟩
  | some e =>
    rw [hl] at hq
    rcases Store.mem_set _ _ _ _ hq with rfl | ⟨hmem, _⟩
    · exact ⟨e, Store.lookup_some_mem _ _ _ hl, rfl, Or.inl rfl, Or.inr rfl⟩
    · exact ⟨q.2, hmem, EntryStep.refl st q.2⟩

theorem keys_update_task_progress (s : Store) (tid : String) (p : Int)
    (now : Nat) (h : s.KeysNodup) :
    (TaskManager.update_task_progress s tid p now).1.KeysNodup := by
  unfold TaskManager.update_task_progress
  cases hl : s.lookup tid with
  | none => exact h
  | some e => exact Store.keysNodup_set _ _ _ h

theorem keys_update_task_result (cfg : Settings) (s : Store) (tid : String)
    (r : ResultMap) (now : Nat) (h : s.KeysNodup) :
    (TaskManager.update_task_result cfg s tid r now).1.KeysNodup := by
  unfold TaskManager.update_task_result
  cases hl : s.lookup tid with
  | none => exact h
  | some e => exact Store.keysNodup_set _ _ _ h

theorem keys_update_task_status (cfg : Settings) (s : Store) (tid : String)
    (st : TaskStatus) (r : Option ResultMap) (now : Nat) (h : s.KeysNodup) :
    (TaskManager.update_task_status cfg s tid st r now).1.KeysNodup := by
  unfold TaskManager.update_task_status
  cases hl : s.lookup tid with
  | none => exact h
  | some e => exact Store.keysNodup_set _ _ _ h

theorem keys_update_prompt_id (cfg : Settings) (s : Store) (tid pid : String)
    (now : Nat) (h : s.KeysNodup) :
    (TaskManager.update_prompt_id cfg s tid pid now).1.KeysNodup := by
  unfold TaskManager.update_prompt_id
  cases hl : s.lookup tid with
  | none => exact h
  | some e => exact Store.keysNodup_set _ _ _ h

theorem lookup_update_task_progress_ne (s : Store) (tid : String) (p : Int)
    (now : Nat) (k : String) (h : k ≠ tid) :
    (TaskManager.update_task_progress s tid p now).1.lookup k = s.lookup k := by
  unfold TaskManager.update_task_progress
  cases hl : s.lookup tid with
  | none => rfl
  | some e => exact Store.lookup_set_ne _ _ _ _ h

theorem lookup_update_task_result_ne (cfg : Settings) (s : Store)
    (tid : String) (r : ResultMap) (now : Nat) (k : String) (h : k ≠ tid) :
    (TaskManager.update_task_result cfg s tid r now).1.lookup k = s.lookup k := by
  unfold TaskManager.update_task_result
  cases hl : s.lookup tid with
  | none => rfl
  | some e => exact Store.lookup_set_ne _ _ _ _ h

theorem lookup_update_task_status_ne (cfg : Settings) (s : Store)
    (tid : String) (st : TaskStatus) (r : Option ResultMap) (now : Nat)
    (k : String) (h : k ≠ tid) :
    (TaskManager.update_task_status cfg s tid st r now).1.lookup k =
      s.lookup k := by
  unfold TaskManager.update_task_status
  cases hl : s.lookup tid with
  | none => rfl
  | some e => exact Store.lookup_set_ne _ _ _ _ h

/-- Every entry of the store after a delivered websocket message descends
from an entry of the original store at the same key: the relay keeps ids,
keeps or drops prompt ids, and writes no status other than COMPLETED. -/
theorem onWs_entries (cfg : Settings) (ev : EngineView) (s : Store)
    (msg : WsMsg) (now : Nat) :
    ∀ q ∈ (onWsMessage cfg ev s msg now).1.entries,
      ∃ e0, (q.1, e0) ∈ s.entries ∧ EntryStep .completed e0 q.2 := by
  intro q hq
  cases msg with
  | binary => exact ⟨q.2, hq, EntryStep.refl _ _⟩
  | statusMsg => exact ⟨q.2, hq, EntryStep.refl _ _⟩
  | other => exact ⟨q.2, hq, EntryStep.refl _ _⟩
  | progress pid v m =>
    cases pid with
    | none => exact ⟨q.2, hq, EntryStep.refl _ _⟩
    | some p =>
      simp only [onWsMessage, onWsMessageBody] at hq
      by_cases hp : p = ""
      · rw [if_pos hp] at hq
        exact ⟨q.2, hq, EntryStep.refl _ _⟩
      · rw [if_neg hp] at hq
        cases hfind : TaskManager.get_task_by_prompt_id s p with
        | none =>
          rw [hfind] at hq
          exact ⟨q.2, hq, EntryStep.refl _ _⟩
        | some task =>
          rw [hfind] at hq
          cases hcalc : progressCalc v m with
          | error err =>
            rw [hcalc] at hq
            exact ⟨q.2, hq, EntryStep.refl _ _⟩
          | ok prog =>
            rw [hcalc] at hq
            exact entries_update_task_progress s task.id prog now _ q hq
  | executing pid node =>
    cases pid with
    | none => exact ⟨q.2, hq, EntryStep.refl _ _⟩
    | some p =>
      simp only [onWsMessage, onWsMessageBody] at hq
      by_cases hp : p = ""
      · rw [if_pos hp] at hq
        exact ⟨q.2, hq, EntryStep.refl _ _⟩
      · rw [if_neg hp] at hq
        cases hfind : TaskManager.get_task_by_prompt_id s p with
        | none =>
          rw [hfind] at hq
          exact ⟨q.2, hq, EntryStep.refl _ _⟩
        | some task =>
          rw [hfind] at hq
          cases node with
          | some n => exact ⟨q.2, hq, EntryStep.refl _ _⟩
          | none =>
            cases hh : ev.historyHas with
            | false =>
              rw [hh] at hq
              exact ⟨q.2, hq, EntryStep.refl _ _⟩
            | true =>
              rw [hh] at hq
              simp only [if_true] at hq
              by_cases himg : ev.outputImages ≠ []
              · rw [if_pos himg] at hq
                obtain ⟨e1, he1, hstep1⟩ :=
                  entries_update_task_status cfg _ task.id .completed none now q hq
                obtain ⟨e0, he0, hstep0⟩ :=
                  entries_update_task_result cfg s task.id ev.processedImages now
                    .completed (q.1, e1) he1
                exact ⟨e0, he0, EntryStep.trans _ _ _ _ hstep0 hstep1⟩
              · rw [if_neg himg] at hq
                exact entries_update_task_status cfg s task.id .completed none now q hq

/-- A delivered websocket message keeps the store keys free of duplicates. -/
theorem onWs_keys (cfg : Settings) (ev : EngineView) (s : Store)
    (msg : WsMsg) (now : Nat) (h : s.KeysNodup) :
    (onWsMessage cfg ev s msg now).1.KeysNodup := by
  cases msg with
  | binary => exact h
  | statusMsg => exact h
  | other => exact h
  | progress pid v m =>
    cases pid with
    | none => exact h
    | some p =>
      simp only [onWsMessage, onWsMessageBody]
      by_cases hp : p = ""
      · rw [if_pos hp]; exact h
      · rw [if_neg hp]
        cases hfind : TaskManager.get_task_by_prompt_id s p with
        | none => exact h
        | some task =>
          cases hcalc : progressCalc v m with
          | error err => exact h
          | ok prog => exact keys_update_task_progress s task.id prog now h
  | executing pid node =>
    cases pid with
    | none => exact h
    | some p =>
      simp only [onWsMessage, onWsMessageBody]
      by_cases hp : p = ""
      · rw [if_pos hp]; exact h
      · rw [if_neg hp]
        cases hfind : TaskManager.get_task_by_prompt_id s p with
        | none => exact h
        | some task =>
          cases node with
          | some n => exact h
          | none =>
            cases hh : ev.historyHas with
            | false => exact h
            | true =>
              simp only [if_true]
              by_cases himg : ev.outputImages ≠ []
              · rw [if_pos himg]
                exact keys_update_task_status cfg _ task.id .completed none now
                  (keys_update_task_result cfg s task.id ev.processedImages now h)
              · rw [if_neg himg]
                exact keys_update_task_status cfg s task.id .completed none now h

/-- The inductive invariant of the interleaved system: stored ids match
their keys and are unique; a FAILED task never carries a prompt id (FAILED
is only written by a generate call that never reached update_prompt_id); the
task of a generate call that has not yet recorded its prompt id has none;
the task of an unfinished generate call is never FAILED; thread task ids are
pairwise distinct. -/
structure Inv (sys : SysState) : Prop where
  ids : ∀ p ∈ sys.store.entries, p.2.task.id = p.1
  keys : sys.store.KeysNodup
  failedNoPrompt : ∀ p ∈ sys.store.entries,
    p.2.task.status = .failed → p.2.task.prompt_id = none
  createdNoPrompt : ∀ th ∈ sys.threads, th.stage = .created →
    ∀ p ∈ sys.store.entries, p.1 = th.tid → p.2.task.prompt_id = none
  activeNotFailed : ∀ th ∈ sys.threads, th.stage ≠ .finished →
    ∀ p ∈ sys.store.entries, p.1 = th.tid → p.2.task.status ≠ .failed
  tids : (sys.threads.map DispThread.tid).Nodup

theorem inv_init : Inv initSys := by
  refine ⟨?_, ?_, ?_, ?_, ?_, ?_⟩ <;>
    simp [initSys, Store.KeysNodup]

theorem tid_inj (l : List DispThread) (h : (l.map DispThread.tid).Nodup) :
    ∀ a ∈ l, ∀ b ∈ l, a.tid = b.tid → a = b := by
  induction l with
  | nil => intro a ha; simp at ha
  | cons c rest ih =>
    simp only [List.map_cons, List.nodup_cons] at h
    intro a ha b hb heq
    rcases List.mem_cons.mp ha with rfl | ha' <;>
      rcases List.mem_cons.mp hb with rfl | hb'
    · rfl
    · exact absurd (List.mem_map.mpr ⟨b, hb', heq.symm⟩) h.1
    · exact absurd (List.mem_map.mpr ⟨a, ha', heq⟩) h.1
    · exact ih h.2 a ha' b hb' heq

theorem advance_threads_mem (threads : List DispThread) (ttid : String)
    (newth : DispThread) :
    ∀ th ∈ threads.map (fun t => if t.tid == ttid then newth else t),
      th = newth ∨ (th ∈ threads ∧ th.tid ≠ ttid) := by
  intro th hth
  rcases List.mem_map.mp hth with ⟨t, ht, rfl⟩
  by_cases htt : (t.tid == ttid) = true
  · left; simp [htt]
  · right
    rw [if_neg htt]
    exact ⟨ht, by simpa using htt⟩

theorem advance_tids (threads : List DispThread) (ttid : String)
    (newth : DispThread) (hnew : newth.tid = ttid) :
    (threads.map (fun t => if t.tid == ttid then newth else t)).map
        DispThread.tid = threads.map DispThread.tid := by
  rw [List.map_map]
  apply List.map_congr_left
  intro t ht
  by_cases htt : (t.tid == ttid) = true
  · have : t.tid = ttid := by simpa using htt
    simp [Function.comp, htt, hnew, this]
  · simp [Function.comp, htt]

/-- Delivered websocket events preserve the invariant: the relay never
creates entries, never changes an id, never adds a prompt id, and only ever
writes the status COMPLETED. -/
theorem inv_deliver (cfg : Settings) (sys : SysState) (msg : WsMsg)
    (ev : EngineView) (now : Nat) (h : Inv sys) :
    Inv (sysStep cfg sys (.deliver msg ev now)) := by
  simp only [sysStep]
  refine ⟨?_, ?_, ?_, ?_, ?_, h.tids⟩
  · intro p hp
    obtain ⟨e0, he0, hstep⟩ := onWs_entries cfg ev sys.store msg now p hp
    rw [hstep.1]
    exact h.ids (p.1, e0) he0
  · exact onWs_keys cfg ev sys.store msg now h.keys
  · intro p hp hfail
    obtain ⟨e0, he0, hstep⟩ := onWs_entries cfg ev sys.store msg now p hp
    have he0fail : e0.task.status = .failed := by
      rcases hstep.2.2 with hs | hs
      · rw [← hs]; exact hfail
      · rw [hfail] at hs; cases hs
    have := h.failedNoPrompt (p.1, e0) he0 he0fail
    rcases hstep.2.1 with hpr | hpr
    · rw [hpr]; exact this
    · exact hpr
  · intro th hth hstage p hp hkey
    obtain ⟨e0, he0, hstep⟩ := onWs_entries cfg ev sys.store msg now p hp
    have := h.createdNoPrompt th hth hstage (p.1, e0) he0 hkey
    rcases hstep.2.1 with hpr | hpr
    · rw [hpr]; exact this
    · exact hpr
  · intro th hth hstage p hp hkey
    obtain ⟨e0, he0, hstep⟩ := onWs_entries cfg ev sys.store msg now p hp
    have hnf := h.activeNotFailed th hth hstage (p.1, e0) he0 hkey
    rcases hstep.2.2 with hs | hs
    · rw [hs]; exact hnf
    · rw [hs]; simp

/-- Spawning a generate call (guarded by task id freshness, mirroring uuid4
uniqueness) preserves the invariant: the new task is QUEUED with no prompt
id. -/
theorem inv_spawn (cfg : Settings) (sys : SysState) (tid wf : String)
    (params : Params) (outcome : DispOutcome) (now : Nat) (h : Inv sys) :
    Inv (sysStep cfg sys (.spawn tid wf params outcome now)) := by
  simp only [sysStep]
  by_cases hguard : (sys.store.lookup tid).isSome ∨
      sys.threads.any (fun th => th.tid == tid) = true
  · rw [if_pos hguard]; exact h
  · rw [if_neg hguard]
    have hfresh : ∀ th ∈ sys.threads, th.tid ≠ tid := by
      intro th hth heq
      exact hguard (Or.inr (List.any_eq_true.mpr ⟨th, hth, by simp [heq]⟩))
    simp only [TaskManager.create_task]
    refine ⟨?_, ?_, ?_, ?_, ?_, ?_⟩
    · intro p hp
      rcases Store.mem_set _ _ _ _ hp with rfl | ⟨hmem, _⟩
      · rfl
      · exact h.ids p hmem
    · exact Store.keysNodup_set _ _ _ h.keys
    · intro p hp hfail
      rcases Store.mem_set _ _ _ _ hp with rfl | ⟨hmem, _⟩
      · simp at hfail
      · exact h.failedNoPrompt p hmem hfail
    · intro th hth hstage p hp hkey
      rcases List.mem_append.mp hth with hth' | hth'
      · rcases Store.mem_set _ _ _ _ hp with rfl | ⟨hmem, hne⟩
        · exact absurd hkey.symm (hfresh th hth')
        · exact h.createdNoPrompt th hth' hstage p hmem hkey
      · have hthv := List.mem_singleton.mp hth'
        subst hthv
        rcases Store.mem_set _ _ _ _ hp with rfl | ⟨hmem, hne⟩
        · rfl
        · exact absurd hkey hne
    · intro th hth hstage p hp hkey
      rcases List.mem_append.mp hth with hth' | hth'
      · rcases Store.mem_set _ _ _ _ hp with rfl | ⟨hmem, hne⟩
        · exact absurd hkey.symm (hfresh th hth')
        · exact h.activeNotFailed th hth' hstage p hmem hkey
      · have hthv := List.mem_singleton.mp hth'
        subst hthv
        rcases Store.mem_set _ _ _ _ hp with rfl | ⟨hmem, hne⟩
        · simp
        · exact absurd hkey hne
    · rw [List.map_append]
      refine List.Nodup.append h.tids (List.nodup_singleton _) ?_
      intro a ha hb
      rcases List.mem_map.mp ha with ⟨th, hth, rfl⟩
      exact hfresh th hth (List.mem_singleton.mp hb)

/-- Assembling the invariant for an advance step from per-conjunct facts
about the new store and the advanced thread. -/
theorem inv_assemble (sys : SysState) (h : Inv sys) (ttid : String)
    (store' : Store) (newth : DispThread) (hnewtid : newth.tid = ttid)
    (c1 : ∀ p ∈ store'.entries, p.2.task.id = p.1)
    (c2 : store'.KeysNodup)
    (c3 : ∀ p ∈ store'.entries, p.2.task.status = .failed →
      p.2.task.prompt_id = none)
    (c4 : newth.stage = .created → ∀ p ∈ store'.entries, p.1 = ttid →
      p.2.task.prompt_id = none)
    (c5 : ∀ th ∈ sys.threads, th.tid ≠ ttid → th.stage = .created →
      ∀ p ∈ store'.entries, p.1 = th.tid → p.2.task.prompt_id = none)
    (c6 : newth.stage ≠ .finished → ∀ p ∈ store'.entries, p.1 = ttid →
      p.2.task.status ≠ .failed)
    (c7 : ∀ th ∈ sys.threads, th.tid ≠ ttid → th.stage ≠ .finished →
      ∀ p ∈ store'.entries, p.1 = th.tid → p.2.task.status ≠ .failed) :
    Inv { store := store'
          threads := sys.threads.map (fun t => if t.tid == ttid then newth else t) } := by
  refine ⟨c1, c2, c3, ?_, ?_, ?_⟩
  · intro th hth hstage p hp hkey
    rcases advance_threads_mem sys.threads ttid newth th hth with rfl | ⟨hold, hne⟩
    · exact c4 hstage p hp (hnewtid ▸ hkey)
    · exact c5 th hold hne hstage p hp hkey
  · intro th hth hstage p hp hkey
    rcases advance_threads_mem sys.threads ttid newth th hth with rfl | ⟨hold, hne⟩
    · exact c6 hstage p hp (hnewtid ▸ hkey)
    · exact c7 th hold hne hstage p hp hkey
  · exact advance_tids sys.threads ttid newth hnewtid ▸ h.tids

/-- An advance of one generate call preserves the invariant. -/
theorem inv_advance (cfg : Settings) (sys : SysState) (i now : Nat)
    (h : Inv sys) : Inv (sysStep cfg sys (.advance i now)) := by
  simp only [sysStep]
  cases hget : sys.threads.get? i with
  | none => exact h
  | some th =>
    have hthmem : th ∈ sys.threads := List.get?_mem hget
    obtain ⟨ttid, twf, outcome, stage⟩ := th
    cases stage with
    | created =>
      cases outcome with
      | templateMissing =>
        simp only [dispAdvance]
        unfold TaskManager.update_task_status
        cases hl : sys.store.lookup ttid with
        | none =>
          refine inv_assemble sys h ttid sys.store _ rfl h.ids h.keys
            h.failedNoPrompt ?_ ?_ ?_ ?_
          · intro hstage; simp at hstage
          · exact fun th' hm _ hs p hp hk => h.createdNoPrompt th' hm hs p hp hk
          · intro hstage; simp at hstage
          · exact fun th' hm _ hs p hp hk => h.activeNotFailed th' hm hs p hp hk
        | some e0 =>
          have hres : (ttid, e0) ∈ sys.store.entries :=
            Store.lookup_some_mem _ _ _ hl
          have he0p : e0.task.prompt_id = none :=
            h.createdNoPrompt ⟨ttid, twf, .templateMissing, .created⟩ hthmem rfl
              (ttid, e0) hres rfl
          refine inv_assemble sys h ttid _ _ rfl ?_
            (Store.keysNodup_set _ _ _ h.keys) ?_ ?_ ?_ ?_ ?_
          · intro p hp
            rcases Store.mem_set _ _ _ _ hp with rfl | ⟨hmem, _⟩
            · exact h.ids (ttid, e0) hres
            · exact h.ids p hmem
          · intro p hp hfail
            rcases Store.mem_set _ _ _ _ hp with rfl | ⟨hmem, _⟩
            · exact he0p
            · exact h.failedNoPrompt p hmem hfail
          · intro hstage; simp at hstage
          · intro th' hm hne hs p hp hk
            rcases Store.mem_set _ _ _ _ hp with rfl | ⟨hmem, _⟩
            · exact absurd hk.symm hne
            · exact h.createdNoPrompt th' hm hs p hmem hk
          · intro hstage; simp at hstage
          · intro th' hm hne hs p hp hk
            rcases Store.mem_set _ _ _ _ hp with rfl | ⟨hmem, _⟩
            · exact absurd hk.symm hne
            · exact h.activeNotFailed th' hm hs p hmem hk
      | engineFail msg =>
        simp only [dispAdvance]
        refine inv_assemble sys h ttid sys.store _ rfl h.ids h.keys
          h.failedNoPrompt ?_ ?_ ?_ ?_
        · intro hstage; simp at hstage
        · exact fun th' hm _ hs p hp hk => h.createdNoPrompt th' hm hs p hp hk
        · intro hstage; simp at hstage
        · exact fun th' hm _ hs p hp hk => h.activeNotFailed th' hm hs p hp hk
      | accepted pid =>
        simp only [dispAdvance]
        unfold TaskManager.update_prompt_id
        cases hl : sys.store.lookup ttid with
        | none =>
          refine inv_assemble sys h ttid sys.store _ rfl h.ids h.keys
            h.failedNoPrompt ?_ ?_ ?_ ?_
          · intro hstage; simp at hstage
          · exact fun th' hm _ hs p hp hk => h.createdNoPrompt th' hm hs p hp hk
          · intro _ p hp hk
            exact h.activeNotFailed ⟨ttid, twf, .accepted pid, .created⟩ hthmem
              (by simp) p hp hk
          · exact fun th' hm _ hs p hp hk => h.activeNotFailed th' hm hs p hp hk
        | some e0 =>
          have hres : (ttid, e0) ∈ sys.store.entries :=
            Store.lookup_some_mem _ _ _ hl
          have he0nf : ¬(e0.task.status = .failed) :=
            h.activeNotFailed ⟨ttid, twf, .accepted pid, .created⟩ hthmem
              (by simp) (ttid, e0) hres rfl
          refine inv_assemble sys h ttid _ _ rfl ?_
            (Store.keysNodup_set _ _ _ h.keys) ?_ ?_ ?_ ?_ ?_
          · intro p hp
            rcases Store.mem_set _ _ _ _ hp with rfl | ⟨hmem, _⟩
            · exact h.ids (ttid, e0) hres
            · exact h.ids p hmem
          · intro p hp hfail
            rcases Store.mem_set _ _ _ _ hp with rfl | ⟨hmem, _⟩
            · exact absurd hfail he0nf
            · exact h.failedNoPrompt p hmem hfail
          · intro hstage; simp at hstage
          · intro th' hm hne hs p hp hk
            rcases Store.mem_set _ _ _ _ hp with rfl | ⟨hmem, _⟩
            · exact absurd hk.symm hne
            · exact h.createdNoPrompt th' hm hs p hmem hk
          · intro _ p hp hk
            rcases Store.mem_set _ _ _ _ hp with rfl | ⟨hmem, hne⟩
            · exact he0nf
            · exact absurd hk hne
          · intro th' hm hne hs p hp hk
            rcases Store.mem_set _ _ _ _ hp with rfl | ⟨hmem, _⟩
            · exact absurd hk.symm hne
            · exact h.activeNotFailed th' hm hs p hmem hk
    | promptSet =>
      cases outcome with
      | templateMissing =>
        simp only [dispAdvance]
        refine inv_assemble sys h ttid sys.store _ rfl h.ids h.keys
          h.failedNoPrompt ?_ ?_ ?_ ?_
        · intro hstage; simp at hstage
        · exact fun th' hm _ hs p hp hk => h.createdNoPrompt th' hm hs p hp hk
        · intro _ p hp hk
          exact h.activeNotFailed ⟨ttid, twf, .templateMissing, .promptSet⟩ hthmem
            (by simp) p hp hk
        · exact fun th' hm _ hs p hp hk => h.activeNotFailed th' hm hs p hp hk
      | engineFail msg =>
        simp only [dispAdvance]
        refine inv_assemble sys h ttid sys.store _ rfl h.ids h.keys
          h.failedNoPrompt ?_ ?_ ?_ ?_
        · intro hstage; simp at hstage
        · exact fun th' hm _ hs p hp hk => h.createdNoPrompt th' hm hs p hp hk
        · intro _ p hp hk
          exact h.activeNotFailed ⟨ttid, twf, .engineFail msg, .promptSet⟩ hthmem
            (by simp) p hp hk
        · exact fun th' hm _ hs p hp hk => h.activeNotFailed th' hm hs p hp hk
      | accepted pid =>
        simp only [dispAdvance]
        unfold TaskManager.update_task_status
        cases hl : sys.store.lookup ttid with
        | none =>
          refine inv_assemble sys h ttid sys.store _ rfl h.ids h.keys
            h.failedNoPrompt ?_ ?_ ?_ ?_
          · intro hstage; simp at hstage
          · exact fun th' hm _ hs p hp hk => h.createdNoPrompt th' hm hs p hp hk
          · intro hstage; simp at hstage
          · exact fun th' hm _ hs p hp hk => h.activeNotFailed th' hm hs p hp hk
        | some e0 =>
          have hres : (ttid, e0) ∈ sys.store.entries :=
            Store.lookup_some_mem _ _ _ hl
          refine inv_assemble sys h ttid _ _ rfl ?_
            (Store.keysNodup_set _ _ _ h.keys) ?_ ?_ ?_ ?_ ?_
          · intro p hp
            rcases Store.mem_set _ _ _ _ hp with rfl | ⟨hmem, _⟩
            · exact h.ids (ttid, e0) hres
            · exact h.ids p hmem
          · intro p hp hfail
            rcases Store.mem_set _ _ _ _ hp with rfl | ⟨hmem, _⟩
            · simp at hfail
            · exact h.failedNoPrompt p hmem hfail
          · intro hstage; simp at hstage
          · intro th' hm hne hs p hp hk
            rcases Store.mem_set _ _ _ _ hp with rfl | ⟨hmem, _⟩
            · exact absurd hk.symm hne
            · exact h.createdNoPrompt th' hm hs p hmem hk
          · intro hstage; simp at hstage
          · intro th' hm hne hs p hp hk
            rcases Store.mem_set _ _ _ _ hp with rfl | ⟨hmem, _⟩
            · exact absurd hk.symm hne
            · exact h.activeNotFailed th' hm hs p hmem hk
    | finished =>
      cases outcome with
      | templateMissing =>
        simp only [dispAdvance]
        refine inv_assemble sys h ttid sys.store _ rfl h.ids h.keys
          h.failedNoPrompt ?_ ?_ ?_ ?_
        · intro hstage; simp at hstage
        · exact fun th' hm _ hs p hp hk => h.createdNoPrompt th' hm hs p hp hk
        · intro hstage; simp at hstage
        · exact fun th' hm _ hs p hp hk => h.activeNotFailed th' hm hs p hp hk
      | engineFail msg =>
        simp only [dispAdvance]
        refine inv_assemble sys h ttid sys.store _ rfl h.ids h.keys
          h.failedNoPrompt ?_ ?_ ?_ ?_
        · intro hstage; simp at hstage
        · exact fun th' hm _ hs p hp hk => h.createdNoPrompt th' hm hs p hp hk
        · intro hstage; simp at hstage
        · exact fun th' hm _ hs p hp hk => h.activeNotFailed th' hm hs p hp hk
      | accepted pid =>
        simp only [dispAdvance]
        refine inv_assemble sys h ttid sys.store _ rfl h.ids h.keys
          h.failedNoPrompt ?_ ?_ ?_ ?_
        · intro hstage; simp at hstage
        · exact fun th' hm _ hs p hp hk => h.createdNoPrompt th' hm hs p hp hk
        · intro hstage; simp at hstage
        · exact fun th' hm _ hs p hp hk => h.activeNotFailed th' hm hs p hp hk

theorem inv_step (cfg : Settings) (sys : SysState) (a : SysAction)
    (h : Inv sys) : Inv (sysStep cfg sys a) := by
  cases a with
  | spawn tid wf params outcome now =>
    exact inv_spawn cfg sys tid wf params outcome now h
  | advance i now => exact inv_advance cfg sys i now h
  | deliver msg ev now => exact inv_deliver cfg sys msg ev now h

theorem runSys_inv (cfg : Settings) (acts : List SysAction) :
    ∀ sys, Inv sys → Inv (runSys cfg sys acts) := by
  induction acts with
  | nil => exact fun sys h => h
  | cons a rest ih => exact fun sys h => ih _ (inv_step cfg sys a h)

theorem reachable_inv (cfg : Settings) (sys : SysState)
    (h : Reachable cfg sys) : Inv sys := by
  obtain ⟨acts, rfl⟩ := h
  exact runSys_inv cfg acts initSys inv_init

theorem lookup_update_task_progress_self (s : Store) (tid : String) (p : Int)
    (now : Nat) (e0 : Entry) (hl : s.lookup tid = some e0) :
    (TaskManager.update_task_progress s tid p now).1.lookup tid =
      some { task := { redisRoundtrip e0.task with
                       progress := max 0 (min 100 p), updated_at := now }
             expiresAt := e0.expiresAt } := by
  unfold TaskManager.update_task_progress
  rw [hl]
  exact Store.lookup_set_self _ _ _

theorem lookup_update_task_result_self (cfg : Settings) (s : Store)
    (tid : String) (r : ResultMap) (now : Nat) (e0 : Entry)
    (hl : s.lookup tid = some e0) :
    (TaskManager.update_task_result cfg s tid r now).1.lookup tid =
      some { task := { e0.task with result := some r, updated_at := now }
             expiresAt := now + cfg.TASK_TTL_SECONDS } := by
  unfold TaskManager.update_task_result
  rw [hl]
  exact Store.lookup_set_self _ _ _

theorem lookup_update_task_status_self (cfg : Settings) (s : Store)
    (tid : String) (st : TaskStatus) (r : Option ResultMap) (now : Nat)
    (e0 : Entry) (hl : s.lookup tid = some e0) :
    (TaskManager.update_task_status cfg s tid st r now).1.lookup tid =
      some { task := { e0.task with
                       status := st, updated_at := now
                       result := match r with
                                 | none => e0.task.result
                                 | some x => some x }
             expiresAt := now + cfg.TASK_TTL_SECONDS } := by
  unfold TaskManager.update_task_status
  rw [hl]
  exact Store.lookup_set_self _ _ _

theorem get_task_by_prompt_id_spec (s : Store) (pid : String) (task : Task)
    (h : TaskManager.get_task_by_prompt_id s pid = some task) :
    ∃ q ∈ s.entries, promptIdStr q.2.task.prompt_id = pid ∧
      task = redisRoundtrip q.2.task := by
  unfold TaskManager.get_task_by_prompt_id at h
  rcases Option.map_eq_some'.mp h with ⟨q, hq, hqe⟩
  refine ⟨q, List.mem_of_find?_eq_some hq, ?_, hqe.symm⟩
  have := List.find?_some hq
  simpa using this

/-- C1 amended: update_task_status itself applies any requested status
unconditionally, and the dispatcher's unconditional PROCESSING write can
overwrite COMPLETED when the completion event arrives between the prompt-id
registration and that write (and the edge QUEUED to COMPLETED then occurs),
as the counterexample trace shows; however, relay-driven updates never
change an already-terminal status in any reachable state: the relay only
ever writes COMPLETED, so a COMPLETED task keeps its status, and a FAILED
task never carries a prompt id, so no event correlates with it. -/
theorem C1_relay_terminal_stable (cfg : Settings) (sys : SysState)
    (hreach : Reachable cfg sys) (msg : WsMsg) (ev : EngineView) (now : Nat)
    (tid : String) (e e' : Entry)
    (he : sys.store.lookup tid = some e)
    (hterm : e.task.status = .completed ∨ e.task.status = .failed)
    (he' : (sysStep cfg sys (.deliver msg ev now)).store.lookup tid = some e') :
    e'.task.status = e.task.status := by
  have hinv := reachable_inv cfg sys hreach
  simp only [sysStep] at he'
  have hsame : sys.store.lookup tid = some e' → e'.task.status = e.task.status := by
    intro hx
    rw [he] at hx
    rw [← Option.some.inj hx]
  cases msg with
  | binary => exact hsame he'
  | statusMsg => exact hsame he'
  | other => exact hsame he'
  | progress pid v m =>
    cases pid with
    | none => exact hsame he'
    | some p =>
      simp only [onWsMessage, onWsMessageBody] at he'
      by_cases hp : p = ""
      · rw [if_pos hp] at he'
        exact hsame he'
      · rw [if_neg hp] at he'
        cases hfind : TaskManager.get_task_by_prompt_id sys.store p with
        | none =>
          rw [hfind] at he'
          exact hsame he'
        | some task =>
          rw [hfind] at he'
          cases hcalc : progressCalc v m with
          | error err =>
            rw [hcalc] at he'
            exact hsame he'
          | ok prog =>
            rw [hcalc] at he'
            have hup : (TaskManager.update_task_progress sys.store task.id
                prog now).1.lookup tid = some e' := he'
            by_cases htid : tid = task.id
            · obtain ⟨q, hq, hqp, hqt⟩ := get_task_by_prompt_id_spec _ _ _ hfind
              have hqid : task.id = q.1 := by
                rw [hqt, redisRoundtrip_id]
                exact hinv.ids q hq
              subst htid
              rw [hqid] at hup he
              have hlq : sys.store.lookup q.1 = some q.2 :=
                Store.mem_lookup _ _ _ hinv.keys (by rw [Prod.mk.eta]; exact hq)
              have he_eq : e = q.2 := by
                rw [he] at hlq
                exact Option.some.inj hlq
              rw [lookup_update_task_progress_self sys.store q.1 prog now q.2 hlq] at hup
              rw [← Option.some.inj hup, he_eq]
              exact redisRoundtrip_status q.2.task
            · rw [lookup_update_task_progress_ne sys.store task.id prog now tid htid] at hup
              exact hsame hup
  | executing pid node =>
    cases pid with
    | none => exact hsame he'
    | some p =>
      simp only [onWsMessage, onWsMessageBody] at he'
      by_cases hp : p = ""
      · rw [if_pos hp] at he'
        exact hsame he'
      · rw [if_neg hp] at he'
        cases hfind : TaskManager.get_task_by_prompt_id sys.store p with
        | none =>
          rw [hfind] at he'
          exact hsame he'
        | some task =>
          rw [hfind] at he'
          cases node with
          | some n => exact hsame he'
          | none =>
            cases hh : ev.historyHas with
            | false =>
              rw [hh] at he'
              exact hsame he'
            | true =>
              rw [hh] at he'
              simp only [if_true] at he'
              by_cases himg : ev.outputImages ≠ []
              · rw [if_pos himg] at he'
                have hup : (TaskManager.update_task_status cfg
                    (TaskManager.update_task_result cfg sys.store task.id
                      ev.processedImages now).1
                    task.id .completed none now).1.lookup tid = some e' := he'
                by_cases htid : tid = task.id
                · obtain ⟨q, hq, hqp, hqt⟩ := get_task_by_prompt_id_spec _ _ _ hfind
                  have hqid : task.id = q.1 := by
                    rw [hqt, redisRoundtrip_id]
                    exact hinv.ids q hq
                  subst htid
                  rw [hqid] at hup he
                  have hlq : sys.store.lookup q.1 = some q.2 :=
                    Store.mem_lookup _ _ _ hinv.keys (by rw [Prod.mk.eta]; exact hq)
                  have he_eq : e = q.2 := by
                    rw [he] at hlq
                    exact Option.some.inj hlq
                  rcases hterm with hcompl | hfail
                  · rw [hcompl]
                    rw [lookup_update_task_status_self cfg _ q.1 .completed none now _
                      (lookup_update_task_result_self cfg sys.store q.1
                        ev.processedImages now q.2 hlq)] at hup
                    rw [← Option.some.inj hup]
                  · have hnone : q.2.task.prompt_id = none :=
                      hinv.failedNoPrompt q hq (he_eq ▸ hfail)
                    rw [hnone] at hqp
                    exact absurd hqp.symm hp
                · rw [lookup_update_task_status_ne _ _ task.id _ _ _ tid htid] at hup
                  rw [lookup_update_task_result_ne _ _ task.id _ _ tid htid] at hup
                  exact hsame hup
              · rw [if_neg himg] at he'
                have hup : (TaskManager.update_task_status cfg sys.store
                    task.id .completed none now).1.lookup tid = some e' := he'
                by_cases htid : tid = task.id
                · obtain ⟨q, hq, hqp, hqt⟩ := get_task_by_prompt_id_spec _ _ _ hfind
                  have hqid : task.id = q.1 := by
                    rw [hqt, redisRoundtrip_id]
                    exact hinv.ids q hq
                  subst htid
                  rw [hqid] at hup he
                  have hlq : sys.store.lookup q.1 = some q.2 :=
                    Store.mem_lookup _ _ _ hinv.keys (by rw [Prod.mk.eta]; exact hq)
                  have he_eq : e = q.2 := by
                    rw [he] at hlq
                    exact Option.some.inj hlq
                  rcases hterm with hcompl | hfail
                  · rw [hcompl]
                    rw [lookup_update_task_status_self cfg sys.store q.1 .completed
                      none now q.2 hlq] at hup
                    rw [← Option.some.inj hup]
                  · have hnone : q.2.task.prompt_id = none :=
                      hinv.failedNoPrompt q hq (he_eq ▸ hfail)
                    rw [hnone] at hqp
                    exact absurd hqp.symm hp
                · rw [lookup_update_task_status_ne _ _ task.id _ _ _ tid htid] at hup
                  exact hsame hup

/-- The reachable system of the race trace after the completion event. -/
def sysC1 : SysState := runSys cfgTest initSys (raceTrace.take 3)

/-- The COMPLETED entry of task t1 in sysC1. -/
def entC1 : Entry :=
  { task := { id := "t1", workflow_name := "basic", parameters := []
              status := .completed, progress := 0, created_at := 0
              updated_at := 2, result := none, prompt_id := some "p1" }
    expiresAt := 102 }

/-- The entry of task t1 after one more delivered completion event. -/
def entC1' : Entry :=
  { task := { id := "t1", workflow_name := "basic", parameters := []
              status := .completed, progress := 0, created_at := 0
              updated_at := 5, result := none, prompt_id := some "p1" }
    expiresAt := 105 }

/-- C1 amended witness: the stability theorem applied to the reachable
state sysC1, whose task t1 is COMPLETED, under a further delivered
completion event for the same prompt id. -/
theorem C1_relay_terminal_stable_witness :
    Reachable cfgTest sysC1 ∧
    sysC1.store.lookup "t1" = some entC1 ∧
    (entC1.task.status = .completed ∨ entC1.task.status = .failed) ∧
    (sysStep cfgTest sysC1
        (.deliver (.executing (some "p1") none) evDone 5)).store.lookup "t1" =
      some entC1' ∧
    entC1'.task.status = entC1.task.status :=
  ⟨⟨raceTrace.take 3, rfl⟩, by decide, by decide, by decide,
    C1_relay_terminal_stable cfgTest sysC1 ⟨raceTrace.take 3, rfl⟩
      (.executing (some "p1") none) evDone 5 "t1" entC1 entC1'
      (by decide) (by decide) (by decide)⟩

end ComfyBackend
